import Mathlib

/-!
# Verification of the klepto build-orchestration script (`build.py`)

This file is a shallow embedding of the orchestration logic of `build.py`:
the product registry, the per-product selection flags, the package-query
parsing, the version extraction from `swift/CMakeLists.txt`, the manifest
construction, the packaging step, and the linear control flow of the
script (validation stages followed by the build loop), together with
theorems settling the specification claims.

Conventions of the embedding:
* Python strings are handled at the `List Char` level so that every
  operation (`strip`, `split`, regex search) is an executable structural
  recursion that the kernel can evaluate.
* Python `dict`s are association lists with Python's insertion-order and
  overwrite semantics (`dictInsert`).
* The script's effects (directory creation, subprocess spawns, builder
  invocations, manifest/archive writes) are recorded in a `Trace`;
  `fail(message)` (print `!!! message`; `exit(1)`) and uncaught Python
  exceptions are the two abnormal terminations (`ScriptErr`).
* External subprocesses are abstracted to an identifying command string
  plus an exit status supplied by the `World`; the precise argument
  vectors (compiler flag synthesis in `_get_clang_cflags`) do not affect
  any control-flow decision of the script and are not modelled.
-/

/-! ## Character-list string utilities (Python `str.strip`, `str.split`) -/

/-- The whitespace characters stripped by Python's `str.strip()`. -/
def isPySpace (c : Char) : Bool :=
  c = ' ' || c = '\t' || c = '\n' || c = '\r' || c = '\x0b' || c = '\x0c'

/-- Python `str.strip()` on a character list. -/
def stripChars (cs : List Char) : List Char :=
  ((cs.dropWhile isPySpace).reverse.dropWhile isPySpace).reverse

/-- Python `str.split(sep)` for a one-character separator: `"".split(sep) = [""]`,
and splitting never drops empty fields. -/
def splitOnChar (sep : Char) : List Char → List (List Char)
  | [] => [[]]
  | c :: rest =>
    match splitOnChar sep rest with
    | [] => [[c]]
    | g :: gs => if c = sep then [] :: g :: gs else (c :: g) :: gs

/-- Number of occurrences of a character in a list. -/
def countChar (c : Char) : List Char → Nat
  | [] => 0
  | d :: rest => (if d = c then 1 else 0) + countChar c rest

/-- Boolean substring test on character lists. -/
def listInfixB (needle : List Char) (hay : List Char) : Bool :=
  match hay with
  | [] => needle.isEmpty
  | _ :: rest => needle.isPrefixOf hay || listInfixB needle rest

/-- Boolean substring test on strings: `strContainsB s sub` holds when `sub`
occurs contiguously inside `s`. -/
def strContainsB (s sub : String) : Bool :=
  listInfixB sub.data s.data

/-- ASCII upper-casing of one character (Python `str.upper` on the
configuration names used here). -/
def upperAsciiChar (c : Char) : Char :=
  if 'a' ≤ c ∧ c ≤ 'z' then Char.ofNat (c.toNat - 32) else c

/-- ASCII lower-casing of one character. -/
def lowerAsciiChar (c : Char) : Char :=
  if 'A' ≤ c ∧ c ≤ 'Z' then Char.ofNat (c.toNat + 32) else c

/-- Python `str.upper()` (ASCII). -/
def strUpper (s : String) : String := ⟨s.data.map upperAsciiChar⟩

/-- Python `str.lower()` (ASCII). -/
def strLower (s : String) : String := ⟨s.data.map lowerAsciiChar⟩

/-! ## Python `dict` model

`build.py` builds `versions = dict(entry.split(" ") for entry in entries)`
and later mutates it.  A Python `dict` preserves insertion order; writing
to an existing key overwrites in place, writing a fresh key appends. -/

/-- A Python dict from package names to version strings, in insertion order. -/
abbrev VersionMap := List (String × String)

/-- Python `d[k] = v` on a dict: overwrite in place or append. -/
def dictInsert (d : VersionMap) (k v : String) : VersionMap :=
  if d.any (fun kv => kv.1 == k) then
    d.map (fun kv => if kv.1 == k then (k, v) else kv)
  else
    d ++ [(k, v)]

/-- Python `k in d` on a dict. -/
def dictHasB (d : VersionMap) (k : String) : Bool :=
  d.any (fun kv => kv.1 == k)

/-- Python `d[k]` with a default for the (checked-before-use) missing case. -/
def dictGetD (d : VersionMap) (k default : String) : String :=
  match d with
  | [] => default
  | (k', v) :: rest => if k' = k then v else dictGetD rest k default

/-- Python `dict(pairs)`: left-to-right insertion of the pairs. -/
def dictOfPairs (pairs : List (String × String)) : VersionMap :=
  pairs.foldl (fun d kv => dictInsert d kv.1 kv.2) []

/-! ## Package-query output parsing (`build.py` lines 370-373)

```python
entries = query.stdout.decode().strip().split("\n")
versions = dict(entry.split(" ") for entry in entries)
```

`dict` raises `ValueError` as soon as some `entry.split(" ")` does not
have exactly two elements; the script does not catch it. -/

/-- One `entry.split(" ")` fed to `dict(...)`: defined only when the split
has exactly two fields. -/
def parsePair (e : List Char) : Option (String × String) :=
  match splitOnChar ' ' e with
  | [a, b] => some (⟨a⟩, ⟨b⟩)
  | _ => none

/-- All entries, failing (like `dict(...)` with a `ValueError`) if any
entry is malformed. -/
def parsePairs : List (List Char) → Option (List (String × String))
  | [] => some []
  | e :: es =>
    match parsePair e, parsePairs es with
    | some p, some ps => some (p :: ps)
    | _, _ => none

/-- Model of `build.py` lines 370-373: split the decoded, stripped query output on
newlines and turn each line into a (name, version) pair; `none` models the
uncaught `ValueError` from `dict(...)`. -/
def parseVersionPairs (output : String) : Option (List (String × String)) :=
  parsePairs (splitOnChar '\n' (stripChars output.data))

/-! ## Version extraction from `swift/CMakeLists.txt` (lines 387-397)

`re.search(r'set\(SWIFT_VERSION "(.*?)"\)', text)`: find the leftmost
position where the literal `set(<VAR> "` matches, then capture lazily
(shortest first) any run of non-newline characters followed by `")`.
If the capture cannot be closed from one position the search moves one
character to the right. -/

/-- The lazy capture `(.*?)` followed by the literal `")`: succeed with the
shortest prefix of non-newline characters that is followed by `"` `)`. -/
def captureUpTo : List Char → Option (List Char)
  | [] => none
  | c :: rest =>
    if c = '"' && (match rest with | ')' :: _ => true | _ => false) then some []
    else if c = '\n' then none
    else (captureUpTo rest).map (fun l => c :: l)

/-- Model of `re.search` for a pattern `<pre>(.*?)"\)` with a literal prefix `pre`:
try every start position from the left, returning the first successful
capture. -/
def reSearchCapture (pre : List Char) : List Char → Option (List Char)
  | [] => none
  | c :: rest =>
    match (if pre.isPrefixOf (c :: rest) then captureUpTo ((c :: rest).drop pre.length) else none) with
    | some cap => some cap
    | none => reSearchCapture pre rest

/-- Model of `re.search(r'set\(<varName> "(.*?)"\)', content)` returning the capture. -/
def searchVersion (varName : String) (content : String) : Option String :=
  (reSearchCapture ("set(" ++ varName ++ " \"").data content.data).map (fun l => ⟨l⟩)

/-! ## Manifest construction (`build.py` lines 469-478) -/

/-- The list `relevant_packages = ["libnx", "devkitA64"]` (line 469). -/
def relevant_packages : List String := ["libnx", "devkitA64"]

/-- Lines 470-478: filter the queried versions down to the relevant
packages, then add the `swift` and `klepto` entries. -/
def manifestVersions (versions : VersionMap) (swift_version klepto_version : String) : VersionMap :=
  dictInsert
    (dictInsert (versions.filter (fun kv => relevant_packages.contains kv.1)) "swift" swift_version)
    "klepto" klepto_version

/-- Line 417-419: the composite version tag
`f"swift[{swift_version}]+dkA64[{versions['devkitA64']}]+lnx[{versions['libnx']}]"`. -/
def versionsStr (swift_version dkA64 lnx : String) : String :=
  "swift[" ++ swift_version ++ "]+dkA64[" ++ dkA64 ++ "]+lnx[" ++ lnx ++ "]"

/-! ## Products registry and argument model (`build.py` lines 45-67, 271-341) -/

/-- The `Configuration` enum (lines 45-47). -/
inductive Configuration
  | RELEASE
  | DEBUG
deriving DecidableEq

/-- The `Configuration.<member>.value` string. -/
def Configuration.value : Configuration → String
  | .RELEASE => "release"
  | .DEBUG => "debug"

/-- Identifier of a `build_and_install_func` (the five builder functions). -/
inductive BuilderId
  | libdispatch
  | icu
  | toolchain
  | swiftpm
  | frontend
deriving DecidableEq

/-- The `Product` dataclass (lines 50-66): a name, an install path relative
to the install destdir, and the builder function. -/
structure Product where
  name : String
  install_path : String
  build_and_install_func : BuilderId
deriving DecidableEq

/-- The fixed products registry (lines 271-281), in declaration order. -/
def products : List Product :=
  [ ⟨"libdispatch", "toolchain", BuilderId.libdispatch⟩
  , ⟨"icu", "icu", BuilderId.icu⟩
  , ⟨"toolchain", "toolchain", BuilderId.toolchain⟩
  , ⟨"swiftpm", "swiftpm", BuilderId.swiftpm⟩
  , ⟨"frontend", "klepto-frontend", BuilderId.frontend⟩ ]

/-- The parsed argparse namespace (lines 284-341).  `package` is `none` for
the default `False`, `some "dist"` for a bare `--package`, and `some s` for
`--package s`; Python truthiness makes `some ""` behave like `False`. -/
structure Args where
  only_libdispatch : Bool := false
  only_icu : Bool := false
  only_toolchain : Bool := false
  only_swiftpm : Bool := false
  only_frontend : Bool := false
  install_destdir : Option String := none
  configuration : String := Configuration.RELEASE.value
  package : Option String := none
  dry_run : Bool := false
  reconfigure : Bool := true
deriving DecidableEq

/-- Python `getattr(args, "only_" + name)` for the five product names. -/
def getOnly (a : Args) (name : String) : Bool :=
  if name = "libdispatch" then a.only_libdispatch
  else if name = "icu" then a.only_icu
  else if name = "toolchain" then a.only_toolchain
  else if name = "swiftpm" then a.only_swiftpm
  else if name = "frontend" then a.only_frontend
  else false

/-- Python truthiness of `args.package` (`False`, or a possibly-empty string). -/
def pkgTruthyB : Option String → Bool
  | none => false
  | some s => !(s == "")

/-- The directory string of `Path(args.package)` (only used when truthy). -/
def pkgDir (a : Args) : String :=
  match a.package with
  | some s => s
  | none => ""

/-- Some `--only-*` flag is set. -/
def anyOnlyB (a : Args) : Bool :=
  products.any (fun p => getOnly a p.name)

/-- The lines 344-347 sanity check passes. -/
def validArgs (a : Args) : Bool :=
  !(pkgTruthyB a.package && anyOnlyB a)

/-- The `argparse` handling of one `store_true` token `--only-<name>`:
set the corresponding attribute, ignore anything else. -/
def applyOnlyFlag (a : Args) (flag : String) : Args :=
  if flag = "--only-libdispatch" then { a with only_libdispatch := true }
  else if flag = "--only-icu" then { a with only_icu := true }
  else if flag = "--only-toolchain" then { a with only_toolchain := true }
  else if flag = "--only-swiftpm" then { a with only_swiftpm := true }
  else if flag = "--only-frontend" then { a with only_frontend := true }
  else a

/-- Processing a command line's `--only-*` flags left to right. -/
def parseOnlyFlags (flags : List String) (a : Args) : Args :=
  flags.foldl applyOnlyFlag a

/-- Lines 432-437: accumulate the products whose `--only-*` flag is set,
in registry order. -/
def selectedProducts (a : Args) : List Product → List Product
  | [] => []
  | p :: ps => (if getOnly a p.name then [p] else []) ++ selectedProducts a ps

/-- Lines 432-438: `products_to_build = products_to_build or products`. -/
def productsToBuild (a : Args) : List Product :=
  let sel := selectedProducts a products
  if sel.isEmpty then products else sel

/-- The `required_software` list (line 350). -/
def required_software : List String :=
  ["clang", "clang++", "swift", "python3", "cmake"]

/-! ## The world: inputs the script reads from its environment

Tool presence, the package-query commands and their output, the
`swift/CMakeLists.txt` contents, directory existence, the `DEVKITPRO`
environment variable, host platform identification, and the exit status
of every build subprocess. -/

structure World where
  args : Args
  which : String → Bool
  dkpPacmanPresent : Bool
  dkpOutput : String
  pacmanPresent : Bool
  pacmanExit : Int
  pacmanOutput : String
  cmakelistsExists : Bool
  cmakelistsContent : String
  icuDirExists : Bool
  devkitproEnv : Option String
  devkitproDirExists : Bool
  distroId : String
  distroRelease : String
  processor : String
  toolchainExit : Int
  swiftpmBuildExit : Int
  swiftpmInstallExit : Int
  libdispatchCmakeExit : Int
  libdispatchNinjaExit : Int

/-! ## Observable effects and the script monad -/

/-- Everything the script does to the outside world, in order per field:
tools looked up with `which`, package queries run, directories created
(`mkdir`), builder functions invoked, external build subprocesses spawned,
manifests written, archives written as (file, arcname, source dir). -/
structure Trace where
  toolsChecked : List String
  queries : List String
  dirsCreated : List String
  buildersInvoked : List String
  buildSpawns : List String
  manifests : List (String × VersionMap)
  archives : List (String × String × String)
deriving DecidableEq

def Trace.empty : Trace := ⟨[], [], [], [], [], [], []⟩

/-- Abnormal termination: `fail(m)` (print `!!! m`, `exit(1)`) or an
uncaught Python exception. -/
inductive ScriptErr
  | failMsg (m : String)
  | exn (e : String)
deriving DecidableEq

/-- The script's effect monad: thread the trace, stop on abnormal
termination. -/
def Script (α : Type) : Type := Trace → Except ScriptErr α × Trace

instance : Monad Script where
  pure a := fun t => (Except.ok a, t)
  bind x f := fun t =>
    match x t with
    | (Except.ok a, t') => f a t'
    | (Except.error e, t') => (Except.error e, t')

/-- The `fail(m)` helper (lines 32-34). -/
def failS {α : Type} (m : String) : Script α :=
  fun t => (Except.error (ScriptErr.failMsg m), t)

/-- An uncaught Python exception. -/
def raiseS {α : Type} (e : String) : Script α :=
  fun t => (Except.error (ScriptErr.exn e), t)

def emitDir (d : String) : Script Unit :=
  fun t => (Except.ok (), { t with dirsCreated := t.dirsCreated ++ [d] })

def emitSpawn (cmd : String) : Script Unit :=
  fun t => (Except.ok (), { t with buildSpawns := t.buildSpawns ++ [cmd] })

@[simp] theorem Script.bind_apply {α β : Type} (x : Script α) (f : α → Script β) (t : Trace) :
    (x >>= f) t =
      match x t with
      | (Except.ok a, t') => f a t'
      | (Except.error e, t') => (Except.error e, t') := rfl

@[simp] theorem Script.pure_apply {α : Type} (a : α) (t : Trace) :
    (pure a : Script α) t = (Except.ok a, t) := rfl

@[simp] theorem failS_apply {α : Type} (m : String) (t : Trace) :
    (failS (α := α) m) t = (Except.error (ScriptErr.failMsg m), t) := rfl

@[simp] theorem raiseS_apply {α : Type} (e : String) (t : Trace) :
    (raiseS (α := α) e) t = (Except.error (ScriptErr.exn e), t) := rfl

@[simp] theorem emitDir_apply (d : String) (t : Trace) :
    emitDir d t = (Except.ok (), { t with dirsCreated := t.dirsCreated ++ [d] }) := rfl

@[simp] theorem emitSpawn_apply (cmd : String) (t : Trace) :
    emitSpawn cmd t = (Except.ok (), { t with buildSpawns := t.buildSpawns ++ [cmd] }) := rfl

/-! ## The product builders (lines 70-268)

The builders shell out to external tools; the model records the spawn and
consults the `World` for its exit status.  Only `build.py`'s own
control-flow reactions to those statuses are modelled. -/

/-- The `build_toolchain` builder (lines 70-96): preset lookup (a `KeyError` for any
configuration outside the enum values), one `build-script` invocation with
the composite version tag, fatal failure on a non-zero exit. -/
def build_toolchain (w : World) (install_path conf vstr : String) : Script Unit :=
  fun t =>
    match (if conf = Configuration.RELEASE.value then some "libnx_release"
           else if conf = Configuration.DEBUG.value then some "libnx_debug"
           else none) with
    | none => (Except.error (ScriptErr.exn "KeyError"), t)
    | some preset =>
      let t1 := { t with buildSpawns :=
        t.buildSpawns ++ ["python3 ./swift/utils/build-script versions_str=klepto-toolchain-" ++ vstr] }
      if w.toolchainExit = 0 then (Except.ok (), t1)
      else (Except.error (ScriptErr.failMsg ("Failed to build toolchain with preset " ++ preset)), t1)

/-- The `build_swiftpm` builder (lines 99-132): configuration flag lookup, bootstrap
`build` then bootstrap `install`, each fatally checked. -/
def build_swiftpm (w : World) (install_path conf vstr : String) : Script Unit :=
  fun t =>
    match (if conf = Configuration.RELEASE.value then some "--release"
           else if conf = Configuration.DEBUG.value then some ""
           else none) with
    | none => (Except.error (ScriptErr.exn "KeyError"), t)
    | some _configuration_arg =>
      let t1 := { t with buildSpawns := t.buildSpawns ++ ["python3 Utilities/bootstrap build"] }
      if w.swiftpmBuildExit = 0 then
        let t2 := { t1 with buildSpawns := t1.buildSpawns ++ ["python3 Utilities/bootstrap install"] }
        if w.swiftpmInstallExit = 0 then (Except.ok (), t2)
        else (Except.error (ScriptErr.failMsg "Could not install swiftpm"), t2)
      else (Except.error (ScriptErr.failMsg "Could not build swiftpm"), t1)

/-- The `build_icu` builder (lines 135-162): check the pre-built `libicuuc-libnx`
directory, then stage files (a copy, no subprocess). -/
def build_icu (w : World) (install_path conf vstr : String) : Script Unit :=
  fun t =>
    if w.icuDirExists then (Except.ok (), t)
    else (Except.error (ScriptErr.failMsg
      "libicuuc not found, please build it with devkitA64 + libnx and place it at libicuuc-libnx"), t)

/-- The `build_frontend` builder (lines 165-181): a directory copy and a symlink swap,
no subprocess and no failure check. -/
def build_frontend (w : World) (install_path conf vstr : String) : Script Unit :=
  fun t => (Except.ok (), t)

/-- The `build_libdispatch` builder (lines 227-268): create the build directory, probe
the cross-gcc for include paths (`_get_clang_cflags`), run `cmake`, run
`ninja` — with no exit-status check on any of the three subprocesses. -/
def build_libdispatch (w : World) (install_path conf vstr : String) : Script Unit :=
  fun t =>
    (Except.ok (), { t with
      dirsCreated := t.dirsCreated ++ ["build/libdispatch"],
      buildSpawns := t.buildSpawns ++
        [ "aarch64-none-elf-gcc -xc++ -E -Wp,-v -"
        , "cmake -G Ninja"
        , "ninja -v" ] })

/-- Dispatch a `build_and_install_func`. -/
def runBuilderFn (b : BuilderId) (w : World) (install_path conf vstr : String) : Script Unit :=
  match b with
  | .libdispatch => build_libdispatch w install_path conf vstr
  | .icu => build_icu w install_path conf vstr
  | .toolchain => build_toolchain w install_path conf vstr
  | .swiftpm => build_swiftpm w install_path conf vstr
  | .frontend => build_frontend w install_path conf vstr

/-! ## The orchestration stages (lines 344-501) -/

/-- Lines 345-347: the loop body of the `--package` sanity check. -/
def checkOnlyAux (a : Args) : List Product → Script Unit
  | [] => pure ()
  | p :: ps =>
    fun t =>
      if getOnly a p.name then
        (Except.error (ScriptErr.failMsg ("Cannot use --package with --only-" ++ p.name)), t)
      else checkOnlyAux a ps t

/-- Lines 344-347: `if args.package: for product in products: ...`. -/
def argsSanityCheck (a : Args) : Script Unit :=
  fun t => if pkgTruthyB a.package then checkOnlyAux a products t else (Except.ok (), t)

/-- Lines 350-353: `which` every required tool, failing at the first miss. -/
def checkToolsAux (w : World) : List String → Script Unit
  | [] => pure ()
  | s :: ss =>
    fun t =>
      let t1 := { t with toolsChecked := t.toolsChecked ++ [s] }
      if w.which s then checkToolsAux w ss t1
      else (Except.error (ScriptErr.failMsg ("Could not find " ++ s)), t1)

def checkRequiredSoftware (w : World) : Script Unit :=
  checkToolsAux w required_software

/-- What line 359 or line 363 leaves in the `query` variable: `run_command`
(i.e. `subprocess.run`) returns a `CompletedProcess` carrying its captured
stdout, while `check_subprocess_output` (i.e. `subprocess.check_output`)
returns the raw stdout bytes themselves. -/
inductive QueryResult
  | completed (stdout : String)
  | rawBytes (stdout : String)
deriving DecidableEq

/-- Lines 357-368: run `dkp-pacman -Qe` via `run_command` (a
`CompletedProcess`), falling back to `pacman -Qe` via `check_output`
(raw bytes; a non-zero exit raises `CalledProcessError` there); return
the `query` value together with the `using` name. -/
def queryPackages (w : World) : Script (QueryResult × String) :=
  fun t =>
    if w.dkpPacmanPresent then
      (Except.ok (QueryResult.completed w.dkpOutput, "dkp-pacman"),
        { t with queries := t.queries ++ ["dkp-pacman -Qe"] })
    else if w.pacmanPresent then
      if w.pacmanExit = 0 then
        (Except.ok (QueryResult.rawBytes w.pacmanOutput, "pacman"),
          { t with queries := t.queries ++ ["pacman -Qe"] })
      else
        (Except.error (ScriptErr.exn "CalledProcessError"), { t with queries := t.queries ++ ["pacman -Qe"] })
    else
      (Except.error (ScriptErr.failMsg
        "Could not find dkp-pacman or pacman to determine installed devkitA64 and libnx versions"), t)

/-- Line 372's `query.stdout.decode()`: on a `CompletedProcess` this yields
the decoded stdout, but on `check_output`'s bytes the attribute access
`query.stdout` raises an uncaught `AttributeError` — the pacman fallback
path can never reach the parser. -/
def decodeStdout (q : QueryResult) : Script String :=
  fun t =>
    match q with
    | QueryResult.completed o => (Except.ok o, t)
    | QueryResult.rawBytes _ => (Except.error (ScriptErr.exn "AttributeError"), t)

/-- The pure outcome of lines 357-372: the decoded output the script goes
on to parse, or the abnormal end of the run at the query/decode steps.
Only the `dkp-pacman` path can produce an output: the fallback path dies
with `CalledProcessError` (non-zero exit inside `check_output`) or with
`AttributeError` (`query.stdout` on bytes at line 372). -/
def queryOutput (w : World) : Except ScriptErr String :=
  if w.dkpPacmanPresent then Except.ok w.dkpOutput
  else if w.pacmanPresent then
    if w.pacmanExit = 0 then Except.error (ScriptErr.exn "AttributeError")
    else Except.error (ScriptErr.exn "CalledProcessError")
  else Except.error (ScriptErr.failMsg
    "Could not find dkp-pacman or pacman to determine installed devkitA64 and libnx versions")

/-- The query command the script ends up running (when one is present). -/
def queryCmdUsed (w : World) : String :=
  if w.dkpPacmanPresent then "dkp-pacman -Qe" else "pacman -Qe"

/-- Lines 370-373: parse the query output; a malformed output is an
uncaught `ValueError`, not a `fail(...)`. -/
def parseEntriesS (output : String) : Script (List (String × String)) :=
  fun t =>
    match parseVersionPairs output with
    | some prs => (Except.ok prs, t)
    | none => (Except.error (ScriptErr.exn "ValueError"), t)

/-- Lines 376-380: ensure `devkitA64` / `libnx` appear in the queried map. -/
def ensureInstalled (versions : VersionMap) (package using_ : String) : Script Unit :=
  fun t =>
    if dictHasB versions package then (Except.ok (), t)
    else (Except.error (ScriptErr.failMsg
      (package ++ " does not seem to be installed (searched with " ++ using_ ++ ")")), t)

/-- Lines 383-385: the swift source tree must be present. -/
def checkCmakelists (w : World) : Script Unit :=
  fun t =>
    if w.cmakelistsExists then (Except.ok (), t)
    else (Except.error (ScriptErr.failMsg "Did not find swift source code at swift/CMakeLists.txt"), t)

/-- Lines 387-397: `re.search` one `set(<varName> "...")` pattern,
failing fatally if it is absent. -/
def parseVersionS (varName failText content : String) : Script String :=
  fun t =>
    match searchVersion varName content with
    | some v => (Except.ok v, t)
    | none => (Except.error (ScriptErr.failMsg failText), t)

/-- Lines 401-405: the pre-built `libicuuc-libnx` directory must exist. -/
def checkIcuDir (w : World) : Script Unit :=
  fun t =>
    if w.icuDirExists then (Except.ok (), t)
    else (Except.error (ScriptErr.failMsg
      "Directory libicuuc-libnx was not found, please build libicuuc and place it there"), t)

/-- Lines 407-415: `DEVKITPRO` must be set, non-empty, and point to an
existing directory. -/
def getDevkitpro (w : World) : Script String :=
  fun t =>
    match w.devkitproEnv with
    | none => (Except.error (ScriptErr.failMsg "DEVKITPRO environment variable is not set, cannot continue"), t)
    | some s =>
      if s = "" then
        (Except.error (ScriptErr.failMsg "DEVKITPRO environment variable is not set, cannot continue"), t)
      else if w.devkitproDirExists then (Except.ok s, t)
      else (Except.error (ScriptErr.failMsg
        "Directory DEVKITPRO was not found, please check the DEVKITPRO environment variable"), t)

/-- Line 423: `f"{distro_id.lower()}{distro_release}-{processor}"`. -/
def platformString (w : World) : String :=
  strLower w.distroId ++ w.distroRelease ++ "-" ++ w.processor

/-- Line 424: `f"klepto-{klepto_version}-{configuration.upper()}-{platform_string}"`. -/
def distName (w : World) (klepto_version : String) : String :=
  "klepto-" ++ klepto_version ++ "-" ++ strUpper w.args.configuration ++ "-" ++ platformString w

/-- Lines 426-430: the install destination (`./dist/<dist_name>` when the
`--install-destdir` value is missing or falsy). -/
def installDestdir (a : Args) (dist_name : String) : String :=
  match a.install_destdir with
  | none => "dist/" ++ dist_name
  | some s => if s = "" then "dist/" ++ dist_name else s

/-- Lines 447-461: the build-and-install loop: create each product's
destination subdirectory, then (except in dry-run mode) invoke its
builder function. -/
def buildLoop (w : World) (dd conf vstr : String) : List Product → Script Unit
  | [] => fun t => (Except.ok (), t)
  | p :: ps =>
    fun t =>
      let t1 := { t with dirsCreated := t.dirsCreated ++ [dd ++ "/" ++ p.install_path] }
      if w.args.dry_run then buildLoop w dd conf vstr ps t1
      else
        let t2 := { t1 with buildersInvoked := t1.buildersInvoked ++ [p.name] }
        match runBuilderFn p.build_and_install_func w (dd ++ "/" ++ p.install_path) conf vstr t2 with
        | (Except.ok _, t3) => buildLoop w dd conf vstr ps t3
        | (Except.error e, t3) => (Except.error e, t3)

/-- Lines 464-484: write `manifest.json` at the install-tree root. -/
def writeManifestS (path : String) (vm : VersionMap) : Script Unit :=
  fun t => (Except.ok (), { t with manifests := t.manifests ++ [(path, vm)] })

/-- Lines 491-499: if packaging was requested, create the package
directory and write `<package dir>/<dist_name>.tar.gz` containing the
whole install tree with the top-level directory renamed to `dist_name`
(`tfile.add(install_destdir, arcname=dist_name)`). -/
def packageStage (w : World) (dist_name dd : String) : Script Unit :=
  fun t =>
    if pkgTruthyB w.args.package then
      (Except.ok (), { t with
        dirsCreated := t.dirsCreated ++ [pkgDir w.args],
        archives := t.archives ++ [(pkgDir w.args ++ "/" ++ dist_name ++ ".tar.gz", dist_name, dd)] })
    else (Except.ok (), t)

/-- The whole script after argument parsing (lines 344-501), in source
order. -/
def scriptBody (w : World) : Script Unit := do
  argsSanityCheck w.args
  checkRequiredSoftware w
  let q ← queryPackages w
  let out ← decodeStdout q.1
  let prs ← parseEntriesS out
  let versions := dictOfPairs prs
  ensureInstalled versions "devkitA64" q.2
  ensureInstalled versions "libnx" q.2
  checkCmakelists w
  let sv ← parseVersionS "SWIFT_VERSION" "Unable to parse SWIFT_VERSION from swift/CMakeLists.txt" w.cmakelistsContent
  let kv ← parseVersionS "KLEPTO_VERSION" "Unable to parse KLEPTO_VERSION from swift/CMakeLists.txt" w.cmakelistsContent
  checkIcuDir w
  let _dkp ← getDevkitpro w
  let vstr := versionsStr sv (dictGetD versions "devkitA64" "") (dictGetD versions "libnx" "")
  let dn := distName w kv
  let dd := installDestdir w.args dn
  emitDir dd
  buildLoop w dd w.args.configuration vstr (productsToBuild w.args)
  writeManifestS (dd ++ "/manifest.json") (manifestVersions versions sv kv)
  packageStage w dn dd

/-- How the process ended: normally (exit 0), via `fail` (one printed
line and exit 1), or with an uncaught exception. -/
inductive Outcome
  | ok
  | fatal (printedLine : String) (exitCode : Nat)
  | uncaught (e : String)
deriving DecidableEq

structure RunResult where
  outcome : Outcome
  trace : Trace
deriving DecidableEq

/-- Run the script from a fresh trace, mapping `fail(m)` to its printed
`!!! `-prefixed line and exit status 1. -/
def runScript (w : World) : RunResult :=
  match scriptBody w Trace.empty with
  | (Except.ok _, t) => ⟨Outcome.ok, t⟩
  | (Except.error (ScriptErr.failMsg m), t) => ⟨Outcome.fatal ("!!! " ++ m) 1, t⟩
  | (Except.error (ScriptErr.exn e), t) => ⟨Outcome.uncaught e, t⟩

/-! ## Closed forms used by the run lemmas -/

/-- The `using` string the script reports in version-check failures. -/
def usingOf (w : World) : String :=
  if w.dkpPacmanPresent then "dkp-pacman" else "pacman"

/-- All required tools are on the search path. -/
def toolsOk (w : World) : Bool :=
  required_software.all w.which

/-- Directories a builder creates besides its install destination. -/
def builderDirs : BuilderId → List String
  | .libdispatch => ["build/libdispatch"]
  | _ => []

/-- Subprocesses a builder spawns on its success path. -/
def builderSpawns (b : BuilderId) (vstr : String) : List String :=
  match b with
  | .libdispatch => ["aarch64-none-elf-gcc -xc++ -E -Wp,-v -", "cmake -G Ninja", "ninja -v"]
  | .icu => []
  | .toolchain => ["python3 ./swift/utils/build-script versions_str=klepto-toolchain-" ++ vstr]
  | .swiftpm => ["python3 Utilities/bootstrap build", "python3 Utilities/bootstrap install"]
  | .frontend => []

/-- The configuration string is one of the enum values (guaranteed by
argparse `choices`). -/
def confValid (conf : String) : Bool :=
  conf == Configuration.RELEASE.value || conf == Configuration.DEBUG.value

/-- A builder returns normally in this world. -/
def builderOk (w : World) : BuilderId → Bool
  | .libdispatch => true
  | .icu => w.icuDirExists
  | .toolchain => confValid w.args.configuration && (w.toolchainExit == 0)
  | .swiftpm => confValid w.args.configuration && (w.swiftpmBuildExit == 0) && (w.swiftpmInstallExit == 0)
  | .frontend => true

/-- Directories created by the build loop, in order. -/
def loopDirs (dry : Bool) (dd : String) : List Product → List String
  | [] => []
  | p :: ps =>
    (dd ++ "/" ++ p.install_path) ::
      ((if dry then [] else builderDirs p.build_and_install_func) ++ loopDirs dry dd ps)

/-- Build subprocesses spawned by the build loop, in order. -/
def loopSpawns (dry : Bool) (vstr : String) : List Product → List String
  | [] => []
  | p :: ps =>
    (if dry then [] else builderSpawns p.build_and_install_func vstr) ++ loopSpawns dry vstr ps

/-- Builder functions invoked by the build loop. -/
def loopBuilders (dry : Bool) (ps : List Product) : List String :=
  if dry then [] else ps.map (fun p => p.name)

/-! ## Stage lemmas -/

theorem checkOnlyAux_ok (a : Args) :
    ∀ (ps : List Product), (∀ p ∈ ps, getOnly a p.name = false) →
      ∀ t, checkOnlyAux a ps t = (Except.ok (), t)
  | [], _, _ => rfl
  | p :: ps, h, t => by
    have h0 : getOnly a p.name = false := h p (List.mem_cons_self p ps)
    simp only [checkOnlyAux, h0, Bool.false_eq_true, if_false]
    exact checkOnlyAux_ok a ps (fun q hq => h q (List.mem_cons_of_mem p hq)) t

theorem checkOnlyAux_fails (a : Args) :
    ∀ (ps : List Product), (∃ p ∈ ps, getOnly a p.name = true) →
      ∀ t, ∃ p, p ∈ ps ∧ getOnly a p.name = true ∧
        checkOnlyAux a ps t =
          (Except.error (ScriptErr.failMsg ("Cannot use --package with --only-" ++ p.name)), t)
  | [], h, _ => absurd h (by simp)
  | p :: ps, h, t => by
    by_cases h0 : getOnly a p.name = true
    · exact ⟨p, List.mem_cons_self p ps, h0, by simp only [checkOnlyAux, h0, if_true]⟩
    · have hex : ∃ q ∈ ps, getOnly a q.name = true := by
        rcases h with ⟨q, hq, hqt⟩
        rcases List.mem_cons.mp hq with rfl | hq'
        · exact absurd hqt h0
        · exact ⟨q, hq', hqt⟩
      rcases checkOnlyAux_fails a ps hex t with ⟨q, hq, hqt, heq⟩
      refine ⟨q, List.mem_cons_of_mem p hq, hqt, ?_⟩
      simp only [checkOnlyAux, h0, if_false]
      exact heq

theorem argsSanityCheck_ok (a : Args) (h : validArgs a = true) (t : Trace) :
    argsSanityCheck a t = (Except.ok (), t) := by
  unfold argsSanityCheck
  cases hp : pkgTruthyB a.package with
  | false => simp
  | true =>
    have hany : anyOnlyB a = false := by
      unfold validArgs at h
      rw [hp] at h
      simpa using h
    have hall : ∀ p ∈ products, getOnly a p.name = false := by
      have := List.any_eq_false.mp hany
      intro p hp'
      simpa using this p hp'
    simpa using checkOnlyAux_ok a products hall t

theorem checkToolsAux_ok (w : World) :
    ∀ (ss : List String), (∀ s ∈ ss, w.which s = true) →
      ∀ t, checkToolsAux w ss t = (Except.ok (), { t with toolsChecked := t.toolsChecked ++ ss })
  | [], _, t => by simp [checkToolsAux]
  | s :: ss, h, t => by
    have h0 : w.which s = true := h s (List.mem_cons_self s ss)
    simp only [checkToolsAux, h0, if_true]
    rw [checkToolsAux_ok w ss (fun q hq => h q (List.mem_cons_of_mem s hq))]
    simp

theorem checkToolsAux_noBuild (w : World) :
    ∀ (ss : List String) (t : Trace),
      (checkToolsAux w ss t).2.buildersInvoked = t.buildersInvoked ∧
      ∃ r, (checkToolsAux w ss t).1 = Except.ok r ∨
           ∃ m, (checkToolsAux w ss t).1 = Except.error (ScriptErr.failMsg m)
  | [], t => by simp [checkToolsAux]
  | s :: ss, t => by
    cases h0 : w.which s with
    | true =>
      have := checkToolsAux_noBuild w ss { t with toolsChecked := t.toolsChecked ++ [s] }
      simpa [checkToolsAux, h0] using this
    | false => simp [checkToolsAux, h0]

theorem checkRequiredSoftware_ok (w : World) (h : toolsOk w = true) (t : Trace) :
    checkRequiredSoftware w t = (Except.ok (), { t with toolsChecked := t.toolsChecked ++ required_software }) := by
  have hall : ∀ s ∈ required_software, w.which s = true := by
    intro s hs
    exact List.all_eq_true.mp h s hs
  exact checkToolsAux_ok w required_software hall t

theorem decodeStdout_completed (o : String) (t : Trace) :
    decodeStdout (QueryResult.completed o) t = (Except.ok o, t) := rfl

theorem decodeStdout_rawBytes (o : String) (t : Trace) :
    decodeStdout (QueryResult.rawBytes o) t =
      (Except.error (ScriptErr.exn "AttributeError"), t) := rfl

theorem queryPackages_ok (w : World) (o : String) (h : queryOutput w = Except.ok o) (t : Trace) :
    queryPackages w t =
      (Except.ok (QueryResult.completed o, usingOf w),
        { t with queries := t.queries ++ [queryCmdUsed w] }) := by
  unfold queryPackages queryOutput queryCmdUsed usingOf at *
  cases hdkp : w.dkpPacmanPresent with
  | true =>
    rw [hdkp] at h
    simp only [if_true] at h ⊢
    cases h
    rfl
  | false =>
    rw [hdkp] at h
    cases hpac : w.pacmanPresent with
    | false => rw [hpac] at h; simp at h
    | true =>
      rw [hpac] at h
      by_cases hexit : w.pacmanExit = 0
      · simp only [hexit, if_true, if_false] at h
        simp at h
      · simp only [hexit, if_true, if_false] at h
        simp at h

theorem queryPackages_pacman (w : World) (h1 : w.dkpPacmanPresent = false)
    (h2 : w.pacmanPresent = true) (h3 : w.pacmanExit = 0) (t : Trace) :
    queryPackages w t =
      (Except.ok (QueryResult.rawBytes w.pacmanOutput, "pacman"),
        { t with queries := t.queries ++ ["pacman -Qe"] }) := by
  simp [queryPackages, h1, h2, h3]

theorem queryPackages_fails (w : World) (h1 : w.dkpPacmanPresent = false)
    (h2 : w.pacmanPresent = false) (t : Trace) :
    queryPackages w t =
      (Except.error (ScriptErr.failMsg
        "Could not find dkp-pacman or pacman to determine installed devkitA64 and libnx versions"), t) := by
  simp [queryPackages, h1, h2]

theorem parseEntriesS_ok (o : String) (prs : List (String × String))
    (h : parseVersionPairs o = some prs) (t : Trace) :
    parseEntriesS o t = (Except.ok prs, t) := by
  simp [parseEntriesS, h]

theorem parseEntriesS_err (o : String) (h : parseVersionPairs o = none) (t : Trace) :
    parseEntriesS o t = (Except.error (ScriptErr.exn "ValueError"), t) := by
  simp [parseEntriesS, h]

theorem ensureInstalled_ok (vm : VersionMap) (k u : String) (h : dictHasB vm k = true) (t : Trace) :
    ensureInstalled vm k u t = (Except.ok (), t) := by
  simp [ensureInstalled, h]

theorem checkCmakelists_ok (w : World) (h : w.cmakelistsExists = true) (t : Trace) :
    checkCmakelists w t = (Except.ok (), t) := by
  simp [checkCmakelists, h]

theorem parseVersionS_ok (vn ft c v : String) (h : searchVersion vn c = some v) (t : Trace) :
    parseVersionS vn ft c t = (Except.ok v, t) := by
  simp [parseVersionS, h]

theorem parseVersionS_err (vn ft c : String) (h : searchVersion vn c = none) (t : Trace) :
    parseVersionS vn ft c t = (Except.error (ScriptErr.failMsg ft), t) := by
  simp [parseVersionS, h]

theorem checkIcuDir_ok (w : World) (h : w.icuDirExists = true) (t : Trace) :
    checkIcuDir w t = (Except.ok (), t) := by
  simp [checkIcuDir, h]

theorem getDevkitpro_ok (w : World) (s : String) (h1 : w.devkitproEnv = some s)
    (h2 : s ≠ "") (h3 : w.devkitproDirExists = true) (t : Trace) :
    getDevkitpro w t = (Except.ok s, t) := by
  simp [getDevkitpro, h1, h2, h3]

/-! ## Builder and build-loop lemmas -/

theorem runBuilderFn_ok (w : World) (b : BuilderId) (p vstr : String)
    (h : builderOk w b = true) (t : Trace) :
    runBuilderFn b w p w.args.configuration vstr t =
      (Except.ok (), { t with
        dirsCreated := t.dirsCreated ++ builderDirs b,
        buildSpawns := t.buildSpawns ++ builderSpawns b vstr }) := by
  cases b with
  | libdispatch =>
    simp [runBuilderFn, build_libdispatch, builderDirs, builderSpawns]
  | icu =>
    have : w.icuDirExists = true := h
    simp [runBuilderFn, build_icu, builderDirs, builderSpawns, this]
  | frontend =>
    simp [runBuilderFn, build_frontend, builderDirs, builderSpawns]
  | toolchain =>
    simp only [builderOk, Bool.and_eq_true, beq_iff_eq] at h
    rcases h with ⟨hconf, hexit⟩
    simp only [confValid, Bool.or_eq_true, beq_iff_eq] at hconf
    rcases hconf with hc | hc <;>
      simp [runBuilderFn, build_toolchain, builderDirs, builderSpawns, hc, hexit,
        Configuration.value]
  | swiftpm =>
    simp only [builderOk, Bool.and_eq_true, beq_iff_eq] at h
    rcases h with ⟨⟨hconf, hbuild⟩, hinstall⟩
    simp only [confValid, Bool.or_eq_true, beq_iff_eq] at hconf
    rcases hconf with hc | hc <;>
      simp [runBuilderFn, build_swiftpm, builderDirs, builderSpawns, hc, hbuild, hinstall,
        Configuration.value]

theorem buildLoop_ok (w : World) (dd vstr : String) :
    ∀ (ps : List Product),
      (∀ p ∈ ps, w.args.dry_run = true ∨ builderOk w p.build_and_install_func = true) →
      ∀ t, buildLoop w dd w.args.configuration vstr ps t =
        (Except.ok (), { t with
          dirsCreated := t.dirsCreated ++ loopDirs w.args.dry_run dd ps,
          buildersInvoked := t.buildersInvoked ++ loopBuilders w.args.dry_run ps,
          buildSpawns := t.buildSpawns ++ loopSpawns w.args.dry_run vstr ps })
  | [], _, t => by simp [buildLoop, loopDirs, loopSpawns, loopBuilders]
  | p :: ps, h, t => by
    have hrest : ∀ q ∈ ps, w.args.dry_run = true ∨ builderOk w q.build_and_install_func = true :=
      fun q hq => h q (List.mem_cons_of_mem p hq)
    cases hdry : w.args.dry_run with
    | true =>
      simp only [buildLoop, hdry, if_true]
      rw [buildLoop_ok w dd vstr ps hrest]
      simp [loopDirs, loopSpawns, loopBuilders, hdry]
    | false =>
      have hok : builderOk w p.build_and_install_func = true := by
        rcases h p (List.mem_cons_self p ps) with h' | h'
        · rw [hdry] at h'; cases h'
        · exact h'
      simp only [buildLoop, hdry, if_false, Bool.false_eq_true,
        runBuilderFn_ok w p.build_and_install_func (dd ++ "/" ++ p.install_path) vstr hok]
      rw [buildLoop_ok w dd vstr ps hrest]
      simp [loopDirs, loopSpawns, loopBuilders, hdry, List.append_assoc]

/-! ## The closed form of a fully validated run -/

/-- The trace of a run in which every validation passes and every invoked
builder succeeds. -/
def okTrace (w : World) (prs : List (String × String)) (sv kv : String) : Trace :=
  let versions := dictOfPairs prs
  let vstr := versionsStr sv (dictGetD versions "devkitA64" "") (dictGetD versions "libnx" "")
  let dn := distName w kv
  let dd := installDestdir w.args dn
  let ps := productsToBuild w.args
  { toolsChecked := required_software
  , queries := [queryCmdUsed w]
  , dirsCreated := dd :: loopDirs w.args.dry_run dd ps ++
      (if pkgTruthyB w.args.package then [pkgDir w.args] else [])
  , buildersInvoked := loopBuilders w.args.dry_run ps
  , buildSpawns := loopSpawns w.args.dry_run vstr ps
  , manifests := [(dd ++ "/manifest.json", manifestVersions versions sv kv)]
  , archives := if pkgTruthyB w.args.package then
      [(pkgDir w.args ++ "/" ++ dn ++ ".tar.gz", dn, dd)] else [] }

theorem runScript_resolved (w : World) (o : String) (prs : List (String × String))
    (sv kv dkp : String)
    (hargs : validArgs w.args = true)
    (htools : toolsOk w = true)
    (hq : queryOutput w = Except.ok o)
    (hprs : parseVersionPairs o = some prs)
    (hdk : dictHasB (dictOfPairs prs) "devkitA64" = true)
    (hlx : dictHasB (dictOfPairs prs) "libnx" = true)
    (hcm : w.cmakelistsExists = true)
    (hsv : searchVersion "SWIFT_VERSION" w.cmakelistsContent = some sv)
    (hkv : searchVersion "KLEPTO_VERSION" w.cmakelistsContent = some kv)
    (hicu : w.icuDirExists = true)
    (henv : w.devkitproEnv = some dkp)
    (hne : dkp ≠ "")
    (hdir : w.devkitproDirExists = true)
    (hbuild : ∀ p ∈ productsToBuild w.args,
      w.args.dry_run = true ∨ builderOk w p.build_and_install_func = true) :
    runScript w = ⟨Outcome.ok, okTrace w prs sv kv⟩ := by
  unfold runScript
  rw [show scriptBody w Trace.empty = (Except.ok (), okTrace w prs sv kv) from ?_]
  · simp only [scriptBody, Script.bind_apply,
      argsSanityCheck_ok w.args hargs,
      checkRequiredSoftware_ok w htools,
      queryPackages_ok w o hq,
      decodeStdout_completed,
      parseEntriesS_ok o prs hprs,
      ensureInstalled_ok _ _ _ hdk,
      ensureInstalled_ok _ _ _ hlx,
      checkCmakelists_ok w hcm,
      parseVersionS_ok _ _ _ _ hsv,
      parseVersionS_ok _ _ _ _ hkv,
      checkIcuDir_ok w hicu,
      getDevkitpro_ok w dkp henv hne hdir,
      emitDir_apply]
    rw [buildLoop_ok w _ _ (productsToBuild w.args) hbuild]
    simp only [Script.bind_apply, writeManifestS, packageStage]
    cases hpkg : pkgTruthyB w.args.package with
    | true => simp [okTrace, Trace.empty, hpkg]
    | false => simp [okTrace, Trace.empty, hpkg]

/-! ## Product-selection lemmas (claim C1) -/

theorem selectedProducts_eq_filter (a : Args) :
    ∀ (ps : List Product), selectedProducts a ps = ps.filter (fun p => getOnly a p.name)
  | [] => rfl
  | p :: ps => by
    cases h : getOnly a p.name with
    | true => simp [selectedProducts, List.filter, h, selectedProducts_eq_filter a ps]
    | false => simp [selectedProducts, List.filter, h, selectedProducts_eq_filter a ps]

theorem productsToBuild_eq (a : Args) :
    productsToBuild a =
      (if anyOnlyB a then products.filter (fun p => getOnly a p.name) else products) := by
  unfold productsToBuild anyOnlyB
  rw [selectedProducts_eq_filter a products]
  cases h : products.any (fun p => getOnly a p.name) with
  | true =>
    rcases List.any_eq_true.mp h with ⟨p, hp, hpt⟩
    have : products.filter (fun p => getOnly a p.name) ≠ [] := by
      intro hnil
      have := List.filter_eq_nil_iff.mp hnil p hp
      simp [hpt] at this
    simp [List.isEmpty_iff, this]
  | false =>
    have : products.filter (fun p => getOnly a p.name) = [] := by
      apply List.filter_eq_nil_iff.mpr
      intro p hp
      simpa using List.any_eq_false.mp h p hp
    simp [List.isEmpty_iff, this]

theorem applyOnlyFlag_only_libdispatch (a : Args) (f : String) :
    ((applyOnlyFlag a f).only_libdispatch = true) ↔
      (a.only_libdispatch = true ∨ f = "--only-libdispatch") := by
  unfold applyOnlyFlag
  split
  · next h => simp [h]
  · next h =>
    split
    · next h2 => simp [h2, h]
    · split
      · next h3 => simp [h3, h]
      · split
        · next h4 => simp [h4, h]
        · split
          · next h5 => simp [h5, h]
          · simp [h]

theorem applyOnlyFlag_only_icu (a : Args) (f : String) :
    ((applyOnlyFlag a f).only_icu = true) ↔ (a.only_icu = true ∨ f = "--only-icu") := by
  unfold applyOnlyFlag
  split
  · next h => simp [h]
  · next h =>
    split
    · next h2 => simp [h2]
    · next h2 =>
      split
      · next h3 => simp [h3, h2]
      · split
        · next h4 => simp [h4, h2]
        · split
          · next h5 => simp [h5, h2]
          · simp [h2]

theorem applyOnlyFlag_only_toolchain (a : Args) (f : String) :
    ((applyOnlyFlag a f).only_toolchain = true) ↔ (a.only_toolchain = true ∨ f = "--only-toolchain") := by
  unfold applyOnlyFlag
  split
  · next h => simp [h]
  · split
    · next h2 => simp [h2]
    · next h2 =>
      split
      · next h3 => simp [h3]
      · next h3 =>
        split
        · next h4 => simp [h4, h3]
        · split
          · next h5 => simp [h5, h3]
          · simp [h3]

theorem applyOnlyFlag_only_swiftpm (a : Args) (f : String) :
    ((applyOnlyFlag a f).only_swiftpm = true) ↔ (a.only_swiftpm = true ∨ f = "--only-swiftpm") := by
  unfold applyOnlyFlag
  split
  · next h => simp [h]
  · split
    · next h2 => simp [h2]
    · split
      · next h3 => simp [h3]
      · next h3 =>
        split
        · next h4 => simp [h4]
        · next h4 =>
          split
          · next h5 => simp [h5, h4]
          · simp [h4]

theorem applyOnlyFlag_only_frontend (a : Args) (f : String) :
    ((applyOnlyFlag a f).only_frontend = true) ↔ (a.only_frontend = true ∨ f = "--only-frontend") := by
  unfold applyOnlyFlag
  split
  · next h => simp [h]
  · split
    · next h2 => simp [h2]
    · split
      · next h3 => simp [h3]
      · split
        · next h4 => simp [h4]
        · next h4 =>
          split
          · next h5 => simp [h5]
          · next h5 => simp [h5]

theorem parseOnlyFlags_only_libdispatch (flags : List String) :
    ∀ (a : Args), ((parseOnlyFlags flags a).only_libdispatch = true) ↔
      (a.only_libdispatch = true ∨ "--only-libdispatch" ∈ flags) := by
  induction flags with
  | nil => intro a; simp [parseOnlyFlags]
  | cons f fs ih =>
    intro a
    simp only [parseOnlyFlags, List.foldl_cons] at *
    rw [ih (applyOnlyFlag a f), applyOnlyFlag_only_libdispatch, List.mem_cons]
    constructor
    · rintro ((h | h) | h)
      · exact Or.inl h
      · exact Or.inr (Or.inl h.symm)
      · exact Or.inr (Or.inr h)
    · rintro (h | h | h)
      · exact Or.inl (Or.inl h)
      · exact Or.inl (Or.inr h.symm)
      · exact Or.inr h

theorem parseOnlyFlags_only_icu (flags : List String) :
    ∀ (a : Args), ((parseOnlyFlags flags a).only_icu = true) ↔
      (a.only_icu = true ∨ "--only-icu" ∈ flags) := by
  induction flags with
  | nil => intro a; simp [parseOnlyFlags]
  | cons f fs ih =>
    intro a
    simp only [parseOnlyFlags, List.foldl_cons] at *
    rw [ih (applyOnlyFlag a f), applyOnlyFlag_only_icu, List.mem_cons]
    constructor
    · rintro ((h | h) | h)
      · exact Or.inl h
      · exact Or.inr (Or.inl h.symm)
      · exact Or.inr (Or.inr h)
    · rintro (h | h | h)
      · exact Or.inl (Or.inl h)
      · exact Or.inl (Or.inr h.symm)
      · exact Or.inr h

theorem parseOnlyFlags_only_toolchain (flags : List String) :
    ∀ (a : Args), ((parseOnlyFlags flags a).only_toolchain = true) ↔
      (a.only_toolchain = true ∨ "--only-toolchain" ∈ flags) := by
  induction flags with
  | nil => intro a; simp [parseOnlyFlags]
  | cons f fs ih =>
    intro a
    simp only [parseOnlyFlags, List.foldl_cons] at *
    rw [ih (applyOnlyFlag a f), applyOnlyFlag_only_toolchain, List.mem_cons]
    constructor
    · rintro ((h | h) | h)
      · exact Or.inl h
      · exact Or.inr (Or.inl h.symm)
      · exact Or.inr (Or.inr h)
    · rintro (h | h | h)
      · exact Or.inl (Or.inl h)
      · exact Or.inl (Or.inr h.symm)
      · exact Or.inr h

theorem parseOnlyFlags_only_swiftpm (flags : List String) :
    ∀ (a : Args), ((parseOnlyFlags flags a).only_swiftpm = true) ↔
      (a.only_swiftpm = true ∨ "--only-swiftpm" ∈ flags) := by
  induction flags with
  | nil => intro a; simp [parseOnlyFlags]
  | cons f fs ih =>
    intro a
    simp only [parseOnlyFlags, List.foldl_cons] at *
    rw [ih (applyOnlyFlag a f), applyOnlyFlag_only_swiftpm, List.mem_cons]
    constructor
    · rintro ((h | h) | h)
      · exact Or.inl h
      · exact Or.inr (Or.inl h.symm)
      · exact Or.inr (Or.inr h)
    · rintro (h | h | h)
      · exact Or.inl (Or.inl h)
      · exact Or.inl (Or.inr h.symm)
      · exact Or.inr h

theorem parseOnlyFlags_only_frontend (flags : List String) :
    ∀ (a : Args), ((parseOnlyFlags flags a).only_frontend = true) ↔
      (a.only_frontend = true ∨ "--only-frontend" ∈ flags) := by
  induction flags with
  | nil => intro a; simp [parseOnlyFlags]
  | cons f fs ih =>
    intro a
    simp only [parseOnlyFlags, List.foldl_cons] at *
    rw [ih (applyOnlyFlag a f), applyOnlyFlag_only_frontend, List.mem_cons]
    constructor
    · rintro ((h | h) | h)
      · exact Or.inl h
      · exact Or.inr (Or.inl h.symm)
      · exact Or.inr (Or.inr h)
    · rintro (h | h | h)
      · exact Or.inl (Or.inl h)
      · exact Or.inl (Or.inr h.symm)
      · exact Or.inr h

theorem applyOnlyFlag_preserves (a : Args) (f : String) :
    (applyOnlyFlag a f).install_destdir = a.install_destdir ∧
    (applyOnlyFlag a f).configuration = a.configuration ∧
    (applyOnlyFlag a f).package = a.package ∧
    (applyOnlyFlag a f).dry_run = a.dry_run ∧
    (applyOnlyFlag a f).reconfigure = a.reconfigure := by
  unfold applyOnlyFlag
  split
  · simp
  · split
    · simp
    · split
      · simp
      · split
        · simp
        · split
          · simp
          · simp

theorem parseOnlyFlags_preserves (flags : List String) :
    ∀ (a : Args),
      (parseOnlyFlags flags a).install_destdir = a.install_destdir ∧
      (parseOnlyFlags flags a).configuration = a.configuration ∧
      (parseOnlyFlags flags a).package = a.package ∧
      (parseOnlyFlags flags a).dry_run = a.dry_run ∧
      (parseOnlyFlags flags a).reconfigure = a.reconfigure := by
  induction flags with
  | nil => intro a; simp [parseOnlyFlags]
  | cons f fs ih =>
    intro a
    simp only [parseOnlyFlags, List.foldl_cons] at *
    rcases ih (applyOnlyFlag a f) with ⟨i1, i2, i3, i4, i5⟩
    rcases applyOnlyFlag_preserves a f with ⟨j1, j2, j3, j4, j5⟩
    exact ⟨i1.trans j1, i2.trans j2, i3.trans j3, i4.trans j4, i5.trans j5⟩

/-- Structure extensionality for the parsed namespace. -/
theorem args_ext {x y : Args}
    (h1 : x.only_libdispatch = y.only_libdispatch)
    (h2 : x.only_icu = y.only_icu)
    (h3 : x.only_toolchain = y.only_toolchain)
    (h4 : x.only_swiftpm = y.only_swiftpm)
    (h5 : x.only_frontend = y.only_frontend)
    (h6 : x.install_destdir = y.install_destdir)
    (h7 : x.configuration = y.configuration)
    (h8 : x.package = y.package)
    (h9 : x.dry_run = y.dry_run)
    (h10 : x.reconfigure = y.reconfigure) : x = y := by
  cases x
  cases y
  simp_all

/-- Two Boolean fields agreeing at `true`-level are equal. -/
theorem bool_eq_of_iff {x y : Bool} (h : (x = true) ↔ (y = true)) : x = y := by
  cases x <;> cases y <;> simp_all

/-- Processing the same multiset of flags in any order yields the same
parsed namespace. -/
theorem parseOnlyFlags_perm (flags flags' : List String) (h : flags.Perm flags') (a : Args) :
    parseOnlyFlags flags a = parseOnlyFlags flags' a := by
  have hmem : ∀ s : String, s ∈ flags ↔ s ∈ flags' := fun s => h.mem_iff
  rcases parseOnlyFlags_preserves flags a with ⟨i1, i2, i3, i4, i5⟩
  rcases parseOnlyFlags_preserves flags' a with ⟨j1, j2, j3, j4, j5⟩
  have e1 : (parseOnlyFlags flags a).only_libdispatch = (parseOnlyFlags flags' a).only_libdispatch :=
    bool_eq_of_iff (by rw [parseOnlyFlags_only_libdispatch, parseOnlyFlags_only_libdispatch, hmem])
  have e2 : (parseOnlyFlags flags a).only_icu = (parseOnlyFlags flags' a).only_icu :=
    bool_eq_of_iff (by rw [parseOnlyFlags_only_icu, parseOnlyFlags_only_icu, hmem])
  have e3 : (parseOnlyFlags flags a).only_toolchain = (parseOnlyFlags flags' a).only_toolchain :=
    bool_eq_of_iff (by rw [parseOnlyFlags_only_toolchain, parseOnlyFlags_only_toolchain, hmem])
  have e4 : (parseOnlyFlags flags a).only_swiftpm = (parseOnlyFlags flags' a).only_swiftpm :=
    bool_eq_of_iff (by rw [parseOnlyFlags_only_swiftpm, parseOnlyFlags_only_swiftpm, hmem])
  have e5 : (parseOnlyFlags flags a).only_frontend = (parseOnlyFlags flags' a).only_frontend :=
    bool_eq_of_iff (by rw [parseOnlyFlags_only_frontend, parseOnlyFlags_only_frontend, hmem])
  exact args_ext e1 e2 e3 e4 e5 (i1.trans j1.symm) (i2.trans j2.symm) (i3.trans j3.symm)
    (i4.trans j4.symm) (i5.trans j5.symm)

/-! ## Dict lemmas -/

theorem dictGetD_append_fresh (k v default : String) :
    ∀ (d : VersionMap), d.any (fun kv => kv.1 == k) = false →
      dictGetD (d ++ [(k, v)]) k default = v
  | [], _ => by simp [dictGetD]
  | (k', v') :: rest, h => by
    simp only [List.any_cons, Bool.or_eq_false_iff, beq_eq_false_iff_ne] at h
    rcases h with ⟨hne, hrest⟩
    simp only [List.cons_append, dictGetD, if_neg hne]
    exact dictGetD_append_fresh k v default rest (by simpa using hrest)

theorem dictGetD_map_replace (k v default : String) :
    ∀ (d : VersionMap), d.any (fun kv => kv.1 == k) = true →
      dictGetD (d.map (fun kv => if kv.1 == k then (k, v) else kv)) k default = v
  | [], h => by simp at h
  | (k', v') :: rest, h => by
    by_cases hk : k' = k
    · subst hk
      have hh : (if (k', v').1 == k' then (k', v) else (k', v')) = (k', v) := by simp
      rw [List.map_cons, hh]
      simp [dictGetD]
    · have hrest : rest.any (fun kv => kv.1 == k) = true := by
        simp only [List.any_cons, Bool.or_eq_true] at h
        rcases h with h | h
        · exact absurd (by simpa using h) hk
        · exact h
      simp only [List.map_cons]
      rw [show ((if (k', v').1 == k then (k, v) else (k', v')) = (k', v')) by simp [hk]]
      simp only [dictGetD, if_neg hk]
      exact dictGetD_map_replace k v default rest hrest

/-- Writing `d[k] = v` then reading `d[k]` gives `v`, for any dict. -/
theorem dictGetD_insert_self (d : VersionMap) (k v default : String) :
    dictGetD (dictInsert d k v) k default = v := by
  unfold dictInsert
  cases h : d.any (fun kv => kv.1 == k) with
  | true => simp only [if_true]; exact dictGetD_map_replace k v default d h
  | false => simp only [Bool.false_eq_true, if_false]; exact dictGetD_append_fresh k v default d h

theorem dictGetD_append_other (k k' v default : String) (hne : k' ≠ k) :
    ∀ (d : VersionMap), dictGetD (d ++ [(k', v)]) k default = dictGetD d k default
  | [] => by simp [dictGetD, hne]
  | (a, b) :: rest => by
    simp only [List.cons_append, dictGetD]
    by_cases ha : a = k
    · simp [ha]
    · simp only [if_neg ha]
      exact dictGetD_append_other k k' v default hne rest

theorem dictGetD_map_other (k k' v default : String) (hne : k' ≠ k) :
    ∀ (d : VersionMap),
      dictGetD (d.map (fun kv => if kv.1 == k' then (k', v) else kv)) k default = dictGetD d k default
  | [] => by simp [dictGetD]
  | (a, b) :: rest => by
    simp only [List.map_cons]
    by_cases ha : a = k'
    · rw [show ((if (a, b).1 == k' then (k', v) else (a, b)) = (k', v)) by simp [ha]]
      simp only [dictGetD, if_neg hne, if_neg (ha ▸ hne : a ≠ k)]
      exact dictGetD_map_other k k' v default hne rest
    · rw [show ((if (a, b).1 == k' then (k', v) else (a, b)) = (a, b)) by simp [ha]]
      simp only [dictGetD]
      by_cases hak : a = k
      · simp [hak]
      · simp only [if_neg hak]
        exact dictGetD_map_other k k' v default hne rest

/-- Writing `d[k'] = v` for another key leaves `d[k]` unchanged. -/
theorem dictGetD_insert_other (d : VersionMap) (k k' v default : String) (hne : k' ≠ k) :
    dictGetD (dictInsert d k' v) k default = dictGetD d k default := by
  unfold dictInsert
  cases h : d.any (fun kv => kv.1 == k') with
  | true => simp only [if_true]; exact dictGetD_map_other k k' v default hne d
  | false => simp only [Bool.false_eq_true, if_false]; exact dictGetD_append_other k k' v default hne d

/-- The manifest always binds `swift` to the parsed swift version. -/
theorem manifestVersions_swift (versions : VersionMap) (sv kv : String) :
    dictGetD (manifestVersions versions sv kv) "swift" "" = sv := by
  unfold manifestVersions
  rw [dictGetD_insert_other _ _ "klepto" _ _ (by decide)]
  exact dictGetD_insert_self _ _ _ _

/-- The manifest always binds `klepto` to the parsed klepto version. -/
theorem manifestVersions_klepto (versions : VersionMap) (sv kv : String) :
    dictGetD (manifestVersions versions sv kv) "klepto" "" = kv := by
  unfold manifestVersions
  exact dictGetD_insert_self _ _ _ _

/-! ## Substring lemmas -/

theorem isPrefixOf_append_self : ∀ (l r : List Char), l.isPrefixOf (l ++ r) = true
  | [], _ => by simp [List.isPrefixOf]
  | c :: l, r => by
    simp only [List.cons_append, List.isPrefixOf_cons₂]
    simp [isPrefixOf_append_self l r]

theorem listInfixB_self_append : ∀ (n b : List Char), listInfixB n (n ++ b) = true
  | [], b => by cases b <;> simp [listInfixB, List.isEmpty]
  | c :: n, b => by
    simp only [List.cons_append, listInfixB]
    have h := isPrefixOf_append_self (c :: n) b
    simp only [List.cons_append] at h
    simp [h]

theorem listInfixB_append_middle : ∀ (a n b : List Char), listInfixB n (a ++ n ++ b) = true
  | [], n, b => by simpa using listInfixB_self_append n b
  | c :: a, n, b => by
    simp only [List.cons_append, listInfixB]
    have h := listInfixB_append_middle a n b
    rw [List.append_assoc] at h
    simp [List.append_eq, h]

/-- A string contains any middle factor of a three-way concatenation. -/
theorem strContainsB_middle (a n b : String) : strContainsB (a ++ n ++ b) n = true := by
  simpa [strContainsB] using listInfixB_append_middle a.data n.data b.data

/-- The composite version tag contains the swift version verbatim. -/
theorem versionsStr_contains_swift (sv dk lnx : String) :
    strContainsB (versionsStr sv dk lnx) sv = true := by
  have := strContainsB_middle "swift[" sv ("]+dkA64[" ++ dk ++ "]+lnx[" ++ lnx ++ "]")
  simpa [versionsStr, String.append_assoc] using this

/-! ## Regex-model lemmas (claim C3) -/

/-- The lazy capture recovers a capture body verbatim when the body contains
no double-quote and no newline and is followed by the closing `")`. -/
theorem captureUpTo_clean :
    ∀ (x rest : List Char), (∀ c ∈ x, c ≠ '"' ∧ c ≠ '\n') →
      captureUpTo (x ++ '"' :: ')' :: rest) = some x
  | [], rest, _ => by simp [captureUpTo]
  | c :: x, rest, h => by
    rcases h c (List.mem_cons_self c x) with ⟨hq, hn⟩
    simp only [List.cons_append, captureUpTo]
    rw [if_neg (by simp [hq]), if_neg hn]
    have hrec := captureUpTo_clean x rest (fun d hd => h d (List.mem_cons_of_mem c hd))
    simp only [List.append_eq]
    rw [hrec]
    rfl

/-- If the literal prefix first matches at position `j` and the lazy capture
succeeds there, the left-to-right search returns that capture. -/
theorem reSearchCapture_at (pre : List Char) (hpre : pre ≠ []) :
    ∀ (j : Nat) (content : List Char) (x : List Char),
      pre.isPrefixOf (content.drop j) = true →
      captureUpTo ((content.drop j).drop pre.length) = some x →
      (∀ i < j, pre.isPrefixOf (content.drop i) = false) →
      reSearchCapture pre content = some x
  | 0, content, x, hj, hcap, _ => by
    cases content with
    | nil =>
      cases pre with
      | nil => exact absurd rfl hpre
      | cons a as => simp [List.isPrefixOf] at hj
    | cons c rest =>
      simp only [List.drop_zero] at hj hcap
      simp only [reSearchCapture, hj, if_true, hcap]
  | j + 1, content, x, hj, hcap, hfirst => by
    cases content with
    | nil =>
      cases pre with
      | nil => exact absurd rfl hpre
      | cons a as => simp [List.isPrefixOf] at hj
    | cons c rest =>
      have h0 : pre.isPrefixOf (c :: rest) = false := by
        have := hfirst 0 (Nat.succ_pos j)
        simpa using this
      have hrec : reSearchCapture pre rest = some x := by
        apply reSearchCapture_at pre hpre j rest x
        · simpa using hj
        · simpa using hcap
        · intro i hi
          have := hfirst (i + 1) (Nat.succ_lt_succ hi)
          simpa using this
      simp only [reSearchCapture, h0, Bool.false_eq_true, if_false]
      exact hrec

/-! ## Query-parse characterization (claim C10) -/

theorem splitOnChar_ne_nil (sep : Char) : ∀ (cs : List Char), splitOnChar sep cs ≠ []
  | [] => by simp [splitOnChar]
  | c :: rest => by
    simp only [splitOnChar]
    cases h : splitOnChar sep rest with
    | nil => simp
    | cons g gs =>
      by_cases hc : c = sep
      · simp [hc]
      · simp [hc]

theorem splitOnChar_length (sep : Char) :
    ∀ (cs : List Char), (splitOnChar sep cs).length = countChar sep cs + 1
  | [] => rfl
  | c :: rest => by
    have hlen := splitOnChar_length sep rest
    simp only [splitOnChar, countChar]
    cases h : splitOnChar sep rest with
    | nil => exact absurd h (splitOnChar_ne_nil sep rest)
    | cons g gs =>
      rw [h] at hlen
      by_cases hc : c = sep
      · simp only [if_pos hc, List.length_cons]
        simp only [List.length_cons] at hlen
        omega
      · simp only [if_neg hc, List.length_cons]
        simp only [List.length_cons] at hlen
        omega

theorem parsePair_isSome (e : List Char) :
    (parsePair e).isSome = true ↔ (splitOnChar ' ' e).length = 2 := by
  unfold parsePair
  rcases h : splitOnChar ' ' e with _ | ⟨a, _ | ⟨b, _ | ⟨c, l⟩⟩⟩ <;> simp

theorem parsePairs_isSome :
    ∀ (es : List (List Char)),
      (parsePairs es).isSome = true ↔ ∀ e ∈ es, (splitOnChar ' ' e).length = 2
  | [] => by simp [parsePairs]
  | e :: es => by
    simp only [parsePairs, List.mem_cons]
    constructor
    · intro h
      rcases hp : parsePair e with _ | p
      · rw [hp] at h; simp at h
      · rcases hps : parsePairs es with _ | ps
        · rw [hp, hps] at h; simp at h
        · intro f hf
          rcases hf with rfl | hf
          · exact (parsePair_isSome f).mp (by simp [hp])
          · exact ((parsePairs_isSome es).mp (by simp [hps])) f hf
    · intro h
      have h1 : (parsePair e).isSome = true :=
        (parsePair_isSome e).mpr (h e (Or.inl rfl))
      have h2 : (parsePairs es).isSome = true :=
        (parsePairs_isSome es).mpr (fun f hf => h f (Or.inr hf))
      rcases hp : parsePair e with _ | p
      · rw [hp] at h1; simp at h1
      · rcases hps : parsePairs es with _ | ps
        · rw [hps] at h2; simp at h2
        · simp

/-- The query parse succeeds exactly when every line of the stripped output
contains exactly one space (one name, one version). -/
theorem parseVersionPairs_isSome (o : String) :
    (parseVersionPairs o).isSome = true ↔
      ∀ line ∈ splitOnChar '\n' (stripChars o.data), countChar ' ' line = 1 := by
  unfold parseVersionPairs
  rw [parsePairs_isSome]
  constructor
  · intro h line hl
    have := h line hl
    have hlen := splitOnChar_length ' ' line
    omega
  · intro h line hl
    have := h line hl
    have hlen := splitOnChar_length ' ' line
    omega

/-- List-level form: searching `a ++ pre ++ x ++ '"' ')' ++ b` finds `x`
when `pre` first occurs at position `|a|` and `x` is quote- and
newline-free. -/
theorem reSearch_shape (pre a x b : List Char) (hpre : pre ≠ [])
    (hX : ∀ c ∈ x, c ≠ '"' ∧ c ≠ '\n')
    (hfirst : ∀ i < a.length, pre.isPrefixOf ((a ++ pre ++ x ++ '"' :: ')' :: b).drop i) = false) :
    reSearchCapture pre (a ++ pre ++ x ++ '"' :: ')' :: b) = some x := by
  have hassoc : a ++ pre ++ x ++ '"' :: ')' :: b = a ++ (pre ++ (x ++ '"' :: ')' :: b)) := by
    simp [List.append_assoc]
  apply reSearchCapture_at pre hpre a.length _ x ?_ ?_ hfirst
  · rw [hassoc, List.drop_left]
    exact isPrefixOf_append_self pre _
  · rw [hassoc, List.drop_left, List.drop_left]
    exact captureUpTo_clean x b hX

/-- String-level form of the successful `re.search`. -/
theorem searchVersion_of_shape (varName A X B : String)
    (hX : ∀ c ∈ X.data, c ≠ '"' ∧ c ≠ '\n')
    (hfirst : ∀ i < A.data.length,
      ("set(" ++ varName ++ " \"").data.isPrefixOf
        ((A ++ ("set(" ++ varName ++ " \"") ++ X ++ "\")" ++ B).data.drop i) = false) :
    searchVersion varName (A ++ ("set(" ++ varName ++ " \"") ++ X ++ "\")" ++ B) = some X := by
  unfold searchVersion
  have hd : (A ++ ("set(" ++ varName ++ " \"") ++ X ++ "\")" ++ B).data
      = A.data ++ ("set(" ++ varName ++ " \"").data ++ X.data ++ '"' :: ')' :: B.data := by
    simp only [String.data_append, List.append_assoc]
    rfl
  have hpre : ("set(" ++ varName ++ " \"").data ≠ [] := by
    simp [String.data_append]
  have hf : ∀ i < A.data.length, ("set(" ++ varName ++ " \"").data.isPrefixOf
      ((A.data ++ ("set(" ++ varName ++ " \"").data ++ X.data ++ '"' :: ')' :: B.data).drop i) = false := by
    intro i hi
    have h2 := hfirst i hi
    rw [hd] at h2
    exact h2
  rw [hd, reSearch_shape _ _ _ _ hpre hX hf]
  rfl

/-! ## Case lemmas for the early stages (used to show every failure before
the build loop is a `fail(...)`, with no builder invoked) -/

theorem checkOnlyAux_cases (a : Args) :
    ∀ (ps : List Product) (t : Trace),
      checkOnlyAux a ps t = (Except.ok (), t) ∨
      ∃ m, checkOnlyAux a ps t = (Except.error (ScriptErr.failMsg m), t)
  | [], t => Or.inl rfl
  | p :: ps, t => by
    cases h : getOnly a p.name with
    | true =>
      right
      exact ⟨"Cannot use --package with --only-" ++ p.name, by simp [checkOnlyAux, h]⟩
    | false =>
      simp only [checkOnlyAux, h, Bool.false_eq_true, if_false]
      exact checkOnlyAux_cases a ps t

theorem argsSanityCheck_cases (a : Args) (t : Trace) :
    argsSanityCheck a t = (Except.ok (), t) ∨
    ∃ m, argsSanityCheck a t = (Except.error (ScriptErr.failMsg m), t) := by
  unfold argsSanityCheck
  cases h : pkgTruthyB a.package with
  | true => simpa using checkOnlyAux_cases a products t
  | false => simp

theorem checkToolsAux_cases (w : World) :
    ∀ (ss : List String) (t : Trace),
      ∃ t', (checkToolsAux w ss t = (Except.ok (), t') ∨
             ∃ m, checkToolsAux w ss t = (Except.error (ScriptErr.failMsg m), t')) ∧
        t'.queries = t.queries ∧ t'.dirsCreated = t.dirsCreated ∧
        t'.buildersInvoked = t.buildersInvoked ∧ t'.buildSpawns = t.buildSpawns ∧
        t'.manifests = t.manifests ∧ t'.archives = t.archives
  | [], t => ⟨t, Or.inl rfl, rfl, rfl, rfl, rfl, rfl, rfl⟩
  | s :: ss, t => by
    cases h : w.which s with
    | true =>
      rcases checkToolsAux_cases w ss { t with toolsChecked := t.toolsChecked ++ [s] } with
        ⟨t', hres, h1, h2, h3, h4, h5, h6⟩
      exact ⟨t', by simpa [checkToolsAux, h] using hres, h1, h2, h3, h4, h5, h6⟩
    | false =>
      exact ⟨{ t with toolsChecked := t.toolsChecked ++ [s] },
        Or.inr ⟨"Could not find " ++ s, by simp [checkToolsAux, h]⟩, rfl, rfl, rfl, rfl, rfl, rfl⟩

/-! ## Claim theorems -/

/-- C9: every fatal failure of the script is signalled by printing a single
message prefixed with the fixed marker `!!! ` and terminating with exit
status 1; apart from normal termination the only other way out is an
uncaught exception — there is no failure path with any other exit status. -/
theorem c9_fatal_discipline (w : World) :
    (runScript w).outcome = Outcome.ok
    ∨ (∃ e, (runScript w).outcome = Outcome.uncaught e)
    ∨ (∃ m, (runScript w).outcome = Outcome.fatal ("!!! " ++ m) 1) := by
  unfold runScript
  rcases h : scriptBody w Trace.empty with ⟨r, t⟩
  match r with
  | Except.ok a => exact Or.inl rfl
  | Except.error (ScriptErr.failMsg m) => exact Or.inr (Or.inr ⟨m, rfl⟩)
  | Except.error (ScriptErr.exn e) => exact Or.inr (Or.inl ⟨e, rfl⟩)

/-- C5: giving `--package` together with any `--only-*` flag makes the
script fail fatally immediately: the run result is the `!!! Cannot use
--package with --only-<name>` fatal outcome with a completely empty trace —
no tool check, no version query, no directory creation, and no builder
invocation has happened. -/
theorem c5_package_with_only_rejected (w : World)
    (hpkg : pkgTruthyB w.args.package = true) (honly : anyOnlyB w.args = true) :
    ∃ p, p ∈ products ∧ getOnly w.args p.name = true ∧
      runScript w =
        ⟨Outcome.fatal ("!!! " ++ ("Cannot use --package with --only-" ++ p.name)) 1, Trace.empty⟩ := by
  have hex : ∃ p ∈ products, getOnly w.args p.name = true := by
    unfold anyOnlyB at honly
    exact List.any_eq_true.mp honly
  rcases checkOnlyAux_fails w.args products hex Trace.empty with ⟨p, hp, hpt, heq⟩
  refine ⟨p, hp, hpt, ?_⟩
  unfold runScript scriptBody
  simp only [Script.bind_apply, argsSanityCheck, hpkg, if_true, heq]

/-- Witness for C5: a concrete world with `--package` and `--only-icu`. -/
def c5World : World :=
  { args := { only_icu := true, package := some "dist" }
  , which := fun _ => false
  , dkpPacmanPresent := false, dkpOutput := "", pacmanPresent := false
  , pacmanExit := 0, pacmanOutput := ""
  , cmakelistsExists := false, cmakelistsContent := ""
  , icuDirExists := false, devkitproEnv := none, devkitproDirExists := false
  , distroId := "", distroRelease := "", processor := ""
  , toolchainExit := 0, swiftpmBuildExit := 0, swiftpmInstallExit := 0
  , libdispatchCmakeExit := 0, libdispatchNinjaExit := 0 }

theorem c5_package_with_only_rejected_witness :
    ∃ p, p ∈ products ∧ getOnly c5World.args p.name = true ∧
      runScript c5World =
        ⟨Outcome.fatal ("!!! " ++ ("Cannot use --package with --only-" ++ p.name)) 1, Trace.empty⟩ :=
  c5_package_with_only_rejected c5World (by decide) (by decide)

/-- The failing input for C4: `dkp-pacman` absent, `pacman` present and
succeeding with perfectly valid `devkitA64`/`libnx` entries. -/
def c4FallbackWorld : World :=
  { c5World with
    args := {}
    pacmanPresent := true
    pacmanOutput := "devkitA64 1.2.3\nlibnx 4.5.6" }

/-- C4 (code bug): the pacman fallback can never resolve versions: line 363
stores `check_output`'s bytes in `query`, so line 372's
`query.stdout.decode()` raises an uncaught `AttributeError` before any
parsing.  (a) The query/decode steps on the fallback path always end in
`AttributeError`; (b) a whole run taking the fallback path crashes with the
uncaught `AttributeError` and invokes no builder — even when pacman printed
perfectly valid entries; (c) with both commands absent the run ends in a
`!!! `-prefixed fatal exit with no builder invoked, as the claim states;
(d) concretely, on the failing input with valid entries the decode step
yields `AttributeError` where the claim demands transparent success. -/
theorem c4_fallback_crashes :
    (∀ (w : World) (t : Trace),
      w.dkpPacmanPresent = false → w.pacmanPresent = true → w.pacmanExit = 0 →
      ((queryPackages w >>= fun q => decodeStdout q.1) t).1 =
        Except.error (ScriptErr.exn "AttributeError"))
    ∧ (∀ w : World,
        validArgs w.args = true → toolsOk w = true →
        w.dkpPacmanPresent = false → w.pacmanPresent = true → w.pacmanExit = 0 →
        (runScript w).outcome = Outcome.uncaught "AttributeError"
        ∧ (runScript w).trace.buildersInvoked = [])
    ∧ (∀ w : World, w.dkpPacmanPresent = false → w.pacmanPresent = false →
        (∃ m, (runScript w).outcome = Outcome.fatal ("!!! " ++ m) 1)
        ∧ (runScript w).trace.buildersInvoked = [])
    ∧ parseVersionPairs c4FallbackWorld.pacmanOutput =
        some [("devkitA64", "1.2.3"), ("libnx", "4.5.6")]
    ∧ ((queryPackages c4FallbackWorld >>= fun q => decodeStdout q.1) Trace.empty).1 =
        Except.error (ScriptErr.exn "AttributeError") := by
  refine ⟨?_, ?_, ?_, by decide, by rfl⟩
  · intro w t h1 h2 h3
    simp only [Script.bind_apply, queryPackages_pacman w h1 h2 h3, decodeStdout_rawBytes]
  · intro w hargs htools h1 h2 h3
    have hrun : runScript w = ⟨Outcome.uncaught "AttributeError",
        { Trace.empty with toolsChecked := required_software, queries := ["pacman -Qe"] }⟩ := by
      unfold runScript scriptBody
      simp only [Script.bind_apply,
        argsSanityCheck_ok w.args hargs,
        checkRequiredSoftware_ok w htools,
        queryPackages_pacman w h1 h2 h3,
        decodeStdout_rawBytes]
      simp [Trace.empty]
    rw [hrun]
    exact ⟨rfl, rfl⟩
  · intro w h1 h2
    unfold runScript scriptBody
    rcases argsSanityCheck_cases w.args Trace.empty with hok | ⟨m, herr⟩
    · rcases checkToolsAux_cases w required_software Trace.empty with ⟨t', hres, e1, e2, e3, e4, e5, e6⟩
      rcases hres with htok | ⟨m2, hterr⟩
      · simp only [Script.bind_apply, hok, checkRequiredSoftware, htok,
          queryPackages_fails w h1 h2]
        exact ⟨⟨_, rfl⟩, e3⟩
      · simp only [Script.bind_apply, hok, checkRequiredSoftware, hterr]
        exact ⟨⟨m2, rfl⟩, e3⟩
    · simp only [Script.bind_apply, herr]
      exact ⟨⟨m, rfl⟩, rfl⟩

/-- C10: (a) the query-output parse is defined exactly when every line of
the stripped output has exactly one space separating a name from a version
— in particular it is undefined for an empty output, for a line without a
space, and for a line with more than one space; (b) whenever the parse is
undefined, the script ends with an uncaught `ValueError`, not through the
`!!! `/exit-1 fatal path. -/
theorem c10_parse_partiality :
    (∀ o : String, (parseVersionPairs o).isSome = true ↔
      ∀ line ∈ splitOnChar '\n' (stripChars o.data), countChar ' ' line = 1)
    ∧ parseVersionPairs "" = none
    ∧ parseVersionPairs "devkitA64" = none
    ∧ parseVersionPairs "devkitA64 1.2.3 extra" = none
    ∧ parseVersionPairs "devkitA64 1.2.3\nlibnx 4.5.6" =
        some [("devkitA64", "1.2.3"), ("libnx", "4.5.6")]
    ∧ (∀ (w : World) (o : String),
        validArgs w.args = true → toolsOk w = true → queryOutput w = Except.ok o →
        parseVersionPairs o = none →
        (runScript w).outcome = Outcome.uncaught "ValueError"
        ∧ ∀ line c, (runScript w).outcome ≠ Outcome.fatal line c) := by
  refine ⟨parseVersionPairs_isSome, by decide, by decide, by decide, by decide, ?_⟩
  intro w o hargs htools hq hbad
  have : runScript w = ⟨Outcome.uncaught "ValueError",
      { Trace.empty with toolsChecked := required_software, queries := [queryCmdUsed w] }⟩ := by
    unfold runScript scriptBody
    simp only [Script.bind_apply,
      argsSanityCheck_ok w.args hargs,
      checkRequiredSoftware_ok w htools,
      queryPackages_ok w o hq,
      decodeStdout_completed,
      parseEntriesS_err o hbad]
    simp [Trace.empty]
  rw [this]
  exact ⟨rfl, fun line c => by simp⟩

theorem loopSpawns_dry (vstr : String) : ∀ (ps : List Product), loopSpawns true vstr ps = []
  | [] => rfl
  | p :: ps => by simp [loopSpawns, loopSpawns_dry vstr ps]

theorem loopDirs_mem (dry : Bool) (dd : String) :
    ∀ (ps : List Product), ∀ p ∈ ps, (dd ++ "/" ++ p.install_path) ∈ loopDirs dry dd ps
  | [], p, hp => absurd hp (List.not_mem_nil p)
  | q :: ps, p, hp => by
    rcases List.mem_cons.mp hp with rfl | hp'
    · simp [loopDirs]
    · simp only [loopDirs, List.mem_cons, List.mem_append]
      exact Or.inr (Or.inr (loopDirs_mem dry dd ps p hp'))

/-- C1: processing the `--only-*` flags in any order yields the same parsed
namespace; the set of products built is exactly the flagged subset of the
registry, filtered in (and hence ordered by) declaration order, or the whole
registry when no flag is set; and on a successful run the orchestrator
invokes exactly those builders, in that order. -/
theorem c1_selection_order (flags flags' : List String) (hperm : flags.Perm flags') :
    parseOnlyFlags flags ({} : Args) = parseOnlyFlags flags' ({} : Args)
    ∧ (∀ a : Args, productsToBuild a =
        (if anyOnlyB a then products.filter (fun p => getOnly a p.name) else products))
    ∧ (∀ a : Args, anyOnlyB a = false → productsToBuild a = products)
    ∧ (∀ (w : World) (o : String) (prs : List (String × String)) (sv kv dkp : String),
        validArgs w.args = true → toolsOk w = true →
        queryOutput w = Except.ok o → parseVersionPairs o = some prs →
        dictHasB (dictOfPairs prs) "devkitA64" = true →
        dictHasB (dictOfPairs prs) "libnx" = true →
        w.cmakelistsExists = true →
        searchVersion "SWIFT_VERSION" w.cmakelistsContent = some sv →
        searchVersion "KLEPTO_VERSION" w.cmakelistsContent = some kv →
        w.icuDirExists = true → w.devkitproEnv = some dkp → dkp ≠ "" →
        w.devkitproDirExists = true → w.args.dry_run = false →
        (∀ p ∈ productsToBuild w.args, builderOk w p.build_and_install_func = true) →
        (runScript w).trace.buildersInvoked = (productsToBuild w.args).map (fun p => p.name)) := by
  refine ⟨parseOnlyFlags_perm flags flags' hperm {}, productsToBuild_eq, ?_, ?_⟩
  · intro a ha
    rw [productsToBuild_eq a, ha]
    simp
  · intro w o prs sv kv dkp hargs htools hq hprs hdk hlx hcm hsv hkv hicu henv hne hdir hdry hbuild
    rw [runScript_resolved w o prs sv kv dkp hargs htools hq hprs hdk hlx hcm hsv hkv hicu henv
        hne hdir (fun p hp => Or.inr (hbuild p hp))]
    simp [okTrace, loopBuilders, hdry]

theorem c1_selection_order_witness :
    parseOnlyFlags ["--only-swiftpm", "--only-icu"] ({} : Args) =
      parseOnlyFlags ["--only-icu", "--only-swiftpm"] ({} : Args) :=
  (c1_selection_order ["--only-swiftpm", "--only-icu"] ["--only-icu", "--only-swiftpm"]
    (by decide)).1

/-- C2: for the query output `devkitA64 1.2.3\nlibnx 4.5.6\nfoo 9.9.9`, the
parsed map holds all three packages, and the manifest's `versions` object
holds exactly the keys `devkitA64`, `libnx`, `swift`, `klepto` (the last two
bound to the values parsed from the build-configuration file) with no `foo`
key; on a successful run that is exactly the map written to
`manifest.json`. -/
theorem c2_manifest_versions (S K : String) :
    parseVersionPairs "devkitA64 1.2.3\nlibnx 4.5.6\nfoo 9.9.9" =
      some [("devkitA64", "1.2.3"), ("libnx", "4.5.6"), ("foo", "9.9.9")]
    ∧ manifestVersions
        (dictOfPairs [("devkitA64", "1.2.3"), ("libnx", "4.5.6"), ("foo", "9.9.9")]) S K =
        [("devkitA64", "1.2.3"), ("libnx", "4.5.6"), ("swift", S), ("klepto", K)]
    ∧ (manifestVersions
        (dictOfPairs [("devkitA64", "1.2.3"), ("libnx", "4.5.6"), ("foo", "9.9.9")]) S K).map
          Prod.fst = ["devkitA64", "libnx", "swift", "klepto"]
    ∧ dictHasB (manifestVersions
        (dictOfPairs [("devkitA64", "1.2.3"), ("libnx", "4.5.6"), ("foo", "9.9.9")]) S K)
        "foo" = false
    ∧ (∀ (w : World) (sv kv dkp : String),
        validArgs w.args = true → toolsOk w = true →
        queryOutput w = Except.ok "devkitA64 1.2.3\nlibnx 4.5.6\nfoo 9.9.9" →
        w.cmakelistsExists = true →
        searchVersion "SWIFT_VERSION" w.cmakelistsContent = some sv →
        searchVersion "KLEPTO_VERSION" w.cmakelistsContent = some kv →
        w.icuDirExists = true → w.devkitproEnv = some dkp → dkp ≠ "" →
        w.devkitproDirExists = true →
        (∀ p ∈ productsToBuild w.args,
          w.args.dry_run = true ∨ builderOk w p.build_and_install_func = true) →
        (runScript w).trace.manifests =
          [(installDestdir w.args (distName w kv) ++ "/manifest.json",
            [("devkitA64", "1.2.3"), ("libnx", "4.5.6"), ("swift", sv), ("klepto", kv)])]) := by
  refine ⟨by decide, rfl, rfl, rfl, ?_⟩
  intro w sv kv dkp hargs htools hq hcm hsv hkv hicu henv hne hdir hbuild
  rw [runScript_resolved w "devkitA64 1.2.3\nlibnx 4.5.6\nfoo 9.9.9"
      [("devkitA64", "1.2.3"), ("libnx", "4.5.6"), ("foo", "9.9.9")] sv kv dkp
      hargs htools hq (by decide) (by decide) (by decide) hcm hsv hkv hicu henv hne hdir hbuild]
  simp only [okTrace]
  rfl

/-- C8: the libdispatch builder checks no exit status — it returns normally
for every exit status of its subprocesses — while the toolchain and swiftpm
builders fail fatally on any non-zero exit of theirs; after the libdispatch
builder the loop goes on to invoke every remaining product's builder. -/
theorem c8_libdispatch_ignores_exit_codes :
    (∀ (w : World) (p conf vstr : String) (t : Trace),
      (build_libdispatch w p conf vstr t).1 = Except.ok ())
    ∧ (∀ (w : World) (p conf vstr : String) (t : Trace),
        confValid conf = true → w.toolchainExit ≠ 0 →
        ∃ preset, (build_toolchain w p conf vstr t).1 =
          Except.error (ScriptErr.failMsg ("Failed to build toolchain with preset " ++ preset)))
    ∧ (∀ (w : World) (p conf vstr : String) (t : Trace),
        confValid conf = true → w.swiftpmBuildExit ≠ 0 →
        (build_swiftpm w p conf vstr t).1 =
          Except.error (ScriptErr.failMsg "Could not build swiftpm"))
    ∧ (∀ (w : World) (p conf vstr : String) (t : Trace),
        confValid conf = true → w.swiftpmBuildExit = 0 → w.swiftpmInstallExit ≠ 0 →
        (build_swiftpm w p conf vstr t).1 =
          Except.error (ScriptErr.failMsg "Could not install swiftpm"))
    ∧ (∀ (w : World) (dd vstr : String) (ps : List Product) (t : Trace),
        w.args.dry_run = false →
        (∀ p ∈ ps, builderOk w p.build_and_install_func = true) →
        (buildLoop w dd w.args.configuration vstr
            (⟨"libdispatch", "toolchain", BuilderId.libdispatch⟩ :: ps) t).2.buildersInvoked =
          t.buildersInvoked ++ "libdispatch" :: ps.map (fun p => p.name)) := by
  refine ⟨fun w p conf vstr t => rfl, ?_, ?_, ?_, ?_⟩
  · intro w p conf vstr t hconf hexit
    simp only [confValid, Bool.or_eq_true, beq_iff_eq] at hconf
    rcases hconf with hc | hc
    · exact ⟨"libnx_release", by simp [build_toolchain, hc, Configuration.value, hexit]⟩
    · exact ⟨"libnx_debug", by simp [build_toolchain, hc, Configuration.value, hexit]⟩
  · intro w p conf vstr t hconf hexit
    simp only [confValid, Bool.or_eq_true, beq_iff_eq] at hconf
    rcases hconf with hc | hc <;> simp [build_swiftpm, hc, Configuration.value, hexit]
  · intro w p conf vstr t hconf hbuild hinstall
    simp only [confValid, Bool.or_eq_true, beq_iff_eq] at hconf
    rcases hconf with hc | hc <;> simp [build_swiftpm, hc, Configuration.value, hbuild, hinstall]
  · intro w dd vstr ps t hdry hok
    have hall : ∀ p ∈ (⟨"libdispatch", "toolchain", BuilderId.libdispatch⟩ : Product) :: ps,
        w.args.dry_run = true ∨ builderOk w p.build_and_install_func = true := by
      intro p hp
      rcases List.mem_cons.mp hp with rfl | hp'
      · exact Or.inr rfl
      · exact Or.inr (hok p hp')
    rw [buildLoop_ok w dd vstr _ hall]
    simp [loopBuilders, hdry]

def c8World : World :=
  { c5World with
    args := {}
    toolchainExit := 1
    libdispatchCmakeExit := 3
    libdispatchNinjaExit := 5 }

theorem c8_libdispatch_ignores_exit_codes_witness :
    (build_libdispatch c8World "dist/x/toolchain" "release" "v" Trace.empty).1 = Except.ok ()
    ∧ ∃ preset, (build_toolchain c8World "dist/x/toolchain" "release" "v" Trace.empty).1 =
        Except.error (ScriptErr.failMsg ("Failed to build toolchain with preset " ++ preset)) :=
  ⟨c8_libdispatch_ignores_exit_codes.1 c8World "dist/x/toolchain" "release" "v" Trace.empty,
   c8_libdispatch_ignores_exit_codes.2.1 c8World "dist/x/toolchain" "release" "v" Trace.empty
     (by decide) (by decide)⟩

/-- C6: in dry-run mode a fully validated run succeeds, creates the install
destination directory and every selected product's install subdirectory,
invokes no builder function and spawns no build subprocess, while all
validation steps (tool checks, package query, version and prerequisite
checks) still run. -/
theorem c6_dry_run (w : World) (o : String) (prs : List (String × String)) (sv kv dkp : String)
    (hdry : w.args.dry_run = true)
    (hargs : validArgs w.args = true)
    (htools : toolsOk w = true)
    (hq : queryOutput w = Except.ok o)
    (hprs : parseVersionPairs o = some prs)
    (hdk : dictHasB (dictOfPairs prs) "devkitA64" = true)
    (hlx : dictHasB (dictOfPairs prs) "libnx" = true)
    (hcm : w.cmakelistsExists = true)
    (hsv : searchVersion "SWIFT_VERSION" w.cmakelistsContent = some sv)
    (hkv : searchVersion "KLEPTO_VERSION" w.cmakelistsContent = some kv)
    (hicu : w.icuDirExists = true)
    (henv : w.devkitproEnv = some dkp)
    (hne : dkp ≠ "")
    (hdir : w.devkitproDirExists = true) :
    (runScript w).outcome = Outcome.ok
    ∧ (runScript w).trace.buildersInvoked = []
    ∧ (runScript w).trace.buildSpawns = []
    ∧ (runScript w).trace.toolsChecked = required_software
    ∧ (runScript w).trace.queries = [queryCmdUsed w]
    ∧ installDestdir w.args (distName w kv) ∈ (runScript w).trace.dirsCreated
    ∧ (∀ p ∈ productsToBuild w.args,
        installDestdir w.args (distName w kv) ++ "/" ++ p.install_path ∈
          (runScript w).trace.dirsCreated) := by
  rw [runScript_resolved w o prs sv kv dkp hargs htools hq hprs hdk hlx hcm hsv hkv hicu henv
      hne hdir (fun p _ => Or.inl hdry)]
  refine ⟨rfl, ?_, ?_, rfl, rfl, ?_, ?_⟩
  · simp [okTrace, loopBuilders, hdry]
  · simp [okTrace, hdry, loopSpawns_dry]
  · simp [okTrace]
  · intro p hp
    have hm := loopDirs_mem w.args.dry_run (installDestdir w.args (distName w kv))
      (productsToBuild w.args) p hp
    simp only [okTrace, RunResult.mk.injEq, List.mem_cons, List.mem_append]
    exact Or.inl (Or.inr hm)

def c6World : World :=
  { args := { dry_run := true }
  , which := fun _ => true
  , dkpPacmanPresent := true
  , dkpOutput := "devkitA64 1.2.3\nlibnx 4.5.6"
  , pacmanPresent := false, pacmanExit := 0, pacmanOutput := ""
  , cmakelistsExists := true
  , cmakelistsContent := "set(SWIFT_VERSION \"5.3\")\nset(KLEPTO_VERSION \"1.0.0\")"
  , icuDirExists := true
  , devkitproEnv := some "/opt/devkitpro", devkitproDirExists := true
  , distroId := "Ubuntu", distroRelease := "20.04", processor := "aarch64"
  , toolchainExit := 0, swiftpmBuildExit := 0, swiftpmInstallExit := 0
  , libdispatchCmakeExit := 0, libdispatchNinjaExit := 0 }

theorem c6_dry_run_witness :
    (runScript c6World).outcome = Outcome.ok
    ∧ (runScript c6World).trace.buildersInvoked = []
    ∧ (runScript c6World).trace.buildSpawns = []
    ∧ (runScript c6World).trace.toolsChecked = required_software
    ∧ (runScript c6World).trace.queries = [queryCmdUsed c6World]
    ∧ installDestdir c6World.args (distName c6World "1.0.0") ∈ (runScript c6World).trace.dirsCreated
    ∧ (∀ p ∈ productsToBuild c6World.args,
        installDestdir c6World.args (distName c6World "1.0.0") ++ "/" ++ p.install_path ∈
          (runScript c6World).trace.dirsCreated) :=
  c6_dry_run c6World "devkitA64 1.2.3\nlibnx 4.5.6" [("devkitA64", "1.2.3"), ("libnx", "4.5.6")]
    "5.3" "1.0.0" "/opt/devkitpro" rfl (by decide) (by decide) rfl (by decide) (by decide)
    (by decide) rfl (by decide) (by decide) rfl rfl (by decide) rfl

/-- C7: when packaging is requested, a successful run writes exactly one
gzip-compressed tar archive: the file `<package dir>/<dist name>.tar.gz`,
whose single top-level directory is the distribution name
`klepto-<klepto version>-<CONFIGURATION upper-cased>-<platform>` and whose
contents are the whole install tree. -/
theorem c7_package_archive (w : World) (o : String) (prs : List (String × String))
    (sv kv dkp : String)
    (hpkg : pkgTruthyB w.args.package = true)
    (hargs : validArgs w.args = true)
    (htools : toolsOk w = true)
    (hq : queryOutput w = Except.ok o)
    (hprs : parseVersionPairs o = some prs)
    (hdk : dictHasB (dictOfPairs prs) "devkitA64" = true)
    (hlx : dictHasB (dictOfPairs prs) "libnx" = true)
    (hcm : w.cmakelistsExists = true)
    (hsv : searchVersion "SWIFT_VERSION" w.cmakelistsContent = some sv)
    (hkv : searchVersion "KLEPTO_VERSION" w.cmakelistsContent = some kv)
    (hicu : w.icuDirExists = true)
    (henv : w.devkitproEnv = some dkp)
    (hne : dkp ≠ "")
    (hdir : w.devkitproDirExists = true)
    (hbuild : ∀ p ∈ productsToBuild w.args,
      w.args.dry_run = true ∨ builderOk w p.build_and_install_func = true) :
    (runScript w).outcome = Outcome.ok
    ∧ (runScript w).trace.archives =
        [(pkgDir w.args ++ "/" ++
            ("klepto-" ++ kv ++ "-" ++ strUpper w.args.configuration ++ "-" ++ platformString w)
            ++ ".tar.gz",
          "klepto-" ++ kv ++ "-" ++ strUpper w.args.configuration ++ "-" ++ platformString w,
          installDestdir w.args (distName w kv))] := by
  rw [runScript_resolved w o prs sv kv dkp hargs htools hq hprs hdk hlx hcm hsv hkv hicu henv
      hne hdir hbuild]
  refine ⟨rfl, ?_⟩
  simp [okTrace, hpkg, distName]

def c7World : World :=
  { c6World with args := { dry_run := true, package := some "pkgs" } }

theorem c7_package_archive_witness :
    (runScript c7World).outcome = Outcome.ok
    ∧ (runScript c7World).trace.archives =
        [(pkgDir c7World.args ++ "/" ++
            ("klepto-" ++ "1.0.0" ++ "-" ++ strUpper c7World.args.configuration ++ "-"
              ++ platformString c7World) ++ ".tar.gz",
          "klepto-" ++ "1.0.0" ++ "-" ++ strUpper c7World.args.configuration ++ "-"
            ++ platformString c7World,
          installDestdir c7World.args (distName c7World "1.0.0"))] :=
  c7_package_archive c7World "devkitA64 1.2.3\nlibnx 4.5.6"
    [("devkitA64", "1.2.3"), ("libnx", "4.5.6")] "5.3" "1.0.0" "/opt/devkitpro"
    (by decide) (by decide) (by decide) rfl (by decide) (by decide) (by decide) rfl
    (by decide) (by decide) rfl rfl (by decide) rfl
    (fun p _ => Or.inl rfl)

/-! ## Claim C3: version extraction -/

/-- A configuration file of the shape
`A · set(SWIFT_VERSION "X") · M · set(KLEPTO_VERSION "Y") · C`. -/
def cmkContent (A X M Y C : String) : String :=
  A ++ ("set(" ++ "SWIFT_VERSION" ++ " \"") ++ X ++ "\")" ++
    (M ++ ("set(" ++ "KLEPTO_VERSION" ++ " \"") ++ Y ++ "\")" ++ C)

/-- The capture that refutes C3 as literally stated: the file below contains
the pattern `set(SWIFT_VERSION "X")` with `X = 1")x`. -/
def badX : String := "1\")x"

/-- The file `set(SWIFT_VERSION "1")x")` followed by a klepto version line. -/
def badContent : String := "set(SWIFT_VERSION \"1\")x\")\nset(KLEPTO_VERSION \"2\")"

/-- Counterexample to C3 as stated: `badContent` contains
`set(SWIFT_VERSION "` ++ badX ++ `")` (and a klepto pattern with `Y = 2`),
yet the lazy `re.search` capture is `1`, so the composite version tag of the
run does not contain `badX` and the manifest binds `swift` to `1 ≠ badX`. -/
theorem c3_version_extraction_counterexample :
    strContainsB badContent ("set(SWIFT_VERSION \"" ++ badX ++ "\")") = true
    ∧ strContainsB badContent ("set(KLEPTO_VERSION \"" ++ "2" ++ "\")") = true
    ∧ searchVersion "SWIFT_VERSION" badContent = some "1"
    ∧ searchVersion "KLEPTO_VERSION" badContent = some "2"
    ∧ strContainsB (versionsStr "1" "1.2.3" "4.5.6") badX = false
    ∧ dictGetD (manifestVersions
        (dictOfPairs [("devkitA64", "1.2.3"), ("libnx", "4.5.6")]) "1" "2") "swift" "" ≠ badX := by
  decide

/-- C3 (amended): for a configuration file of shape
`A · set(SWIFT_VERSION "X") · M · set(KLEPTO_VERSION "Y") · C` in which `X`
and `Y` contain no double-quote and no newline and these are the first
occurrences of their patterns, the parses yield the literal `X` and `Y`, the
composite version tag contains `X` verbatim, and the manifest binds `swift`
to `X` and `klepto` to `Y`; and if either pattern is absent (its search
fails) the run ends in a `!!! `-prefixed fatal exit with no builder invoked
and no directory created. -/
theorem c3_version_extraction_amended (A X M Y C dk lnx : String)
    (hX : ∀ c ∈ X.data, c ≠ '"' ∧ c ≠ '\n')
    (hY : ∀ c ∈ Y.data, c ≠ '"' ∧ c ≠ '\n')
    (hfirstS : ∀ i < A.data.length,
      ("set(" ++ "SWIFT_VERSION" ++ " \"").data.isPrefixOf
        ((cmkContent A X M Y C).data.drop i) = false)
    (hfirstK : ∀ i < (A ++ ("set(" ++ "SWIFT_VERSION" ++ " \"") ++ X ++ "\")" ++ M).data.length,
      ("set(" ++ "KLEPTO_VERSION" ++ " \"").data.isPrefixOf
        ((cmkContent A X M Y C).data.drop i) = false) :
    searchVersion "SWIFT_VERSION" (cmkContent A X M Y C) = some X
    ∧ searchVersion "KLEPTO_VERSION" (cmkContent A X M Y C) = some Y
    ∧ strContainsB (versionsStr X dk lnx) X = true
    ∧ (∀ vm : VersionMap, dictGetD (manifestVersions vm X Y) "swift" "" = X
        ∧ dictGetD (manifestVersions vm X Y) "klepto" "" = Y)
    ∧ (∀ (w : World) (o : String) (prs : List (String × String)),
        validArgs w.args = true → toolsOk w = true → queryOutput w = Except.ok o →
        parseVersionPairs o = some prs →
        dictHasB (dictOfPairs prs) "devkitA64" = true →
        dictHasB (dictOfPairs prs) "libnx" = true →
        w.cmakelistsExists = true →
        (searchVersion "SWIFT_VERSION" w.cmakelistsContent = none ∨
         searchVersion "KLEPTO_VERSION" w.cmakelistsContent = none) →
        (∃ m, (runScript w).outcome = Outcome.fatal ("!!! " ++ m) 1)
        ∧ (runScript w).trace.buildersInvoked = []
        ∧ (runScript w).trace.dirsCreated = []) := by
  have hre : cmkContent A X M Y C =
      (A ++ ("set(" ++ "SWIFT_VERSION" ++ " \"") ++ X ++ "\")" ++ M) ++
        ("set(" ++ "KLEPTO_VERSION" ++ " \"") ++ Y ++ "\")" ++ C := by
    simp [cmkContent, String.append_assoc]
  refine ⟨?_, ?_, versionsStr_contains_swift X dk lnx,
    fun vm => ⟨manifestVersions_swift vm X Y, manifestVersions_klepto vm X Y⟩, ?_⟩
  · exact searchVersion_of_shape "SWIFT_VERSION" A X
      (M ++ ("set(" ++ "KLEPTO_VERSION" ++ " \"") ++ Y ++ "\")" ++ C) hX hfirstS
  · rw [hre]
    apply searchVersion_of_shape "KLEPTO_VERSION" _ Y C hY
    intro i hi
    have h2 := hfirstK i hi
    rw [hre] at h2
    exact h2
  · intro w o prs hargs htools hq hprs hdk hlx hcm hnone
    unfold runScript scriptBody
    simp only [Script.bind_apply,
      argsSanityCheck_ok w.args hargs,
      checkRequiredSoftware_ok w htools,
      queryPackages_ok w o hq,
      decodeStdout_completed,
      parseEntriesS_ok o prs hprs,
      ensureInstalled_ok _ _ _ hdk,
      ensureInstalled_ok _ _ _ hlx,
      checkCmakelists_ok w hcm]
    rcases hnone with hn | hn
    · simp only [parseVersionS_err _ _ _ hn]
      exact ⟨⟨_, rfl⟩, rfl, rfl⟩
    · rcases hsw : searchVersion "SWIFT_VERSION" w.cmakelistsContent with _ | sv
      · simp only [parseVersionS_err _ _ _ hsw]
        exact ⟨⟨_, rfl⟩, rfl, rfl⟩
      · simp only [parseVersionS_ok _ _ _ _ hsw, parseVersionS_err _ _ _ hn]
        exact ⟨⟨_, rfl⟩, rfl, rfl⟩

theorem c3_version_extraction_amended_witness :
    searchVersion "SWIFT_VERSION" (cmkContent "" "5.3" "\n" "1.0.0" "") = some "5.3"
    ∧ searchVersion "KLEPTO_VERSION" (cmkContent "" "5.3" "\n" "1.0.0" "") = some "1.0.0" :=
  have h := c3_version_extraction_amended "" "5.3" "\n" "1.0.0" "" "1.2.3" "4.5.6"
    (by decide) (by decide)
    (by intro i hi; simp at hi)
    (by decide)
  ⟨h.1, h.2.1⟩
